import Mathlib

/-!
Verification of the news/event aggregation and freshness pipeline of the
`dj_demo` repository (module `news_catcher`: `news_fetcher.py`,
`funding_fetcher.py`, `config.py`).

The Python sources are shallowly embedded: each regular-expression search
used by the code is translated into an explicit scanner over `List Char`
(Python `re.search` tries start positions left to right; at a failing
position the scan moves one character forward), `datetime` values are
embedded as second counts (`Int`) via a day-number function, network
calls are abstracted as oracle functions returning `Except`, and the
mutable dedup state (`seen_uids`) is threaded explicitly.
-/

set_option autoImplicit false
set_option maxRecDepth 8192

namespace NewsCatcher

/-! ## Character classes

Python `\d` on the inputs handled here is the ASCII digits; `\s` is the
ASCII whitespace class.  `str.strip()` removes the same whitespace set.
-/

/-- Python `\s` (ASCII part): space, tab, newline, carriage return,
vertical tab, form feed. -/
def isPySpace (c : Char) : Bool :=
  c = ' ' || c = '\t' || c = '\n' || c = '\r' || c = '\x0b' || c = '\x0c'

/-- Numeric value of a digit character. -/
def digitVal (c : Char) : Nat := c.toNat - '0'.toNat

/-- Value of a digit run, as Python `int()` of the matched group. -/
def digitsVal (l : List Char) : Nat := l.foldl (fun a c => 10 * a + digitVal c) 0

/-- Python `str.strip()`: drop leading and trailing whitespace. -/
def pyStrip (l : List Char) : List Char :=
  ((l.dropWhile isPySpace).reverse.dropWhile isPySpace).reverse

/-! ## Scanners for the regular expressions used by the code

Each `try…` function attempts a match anchored at the start of the list
(`re.match` semantics); each `search…` function scans start positions
left to right (`re.search` semantics).
-/

/-- Consume exactly four digits (`\d{4}`), returning their value and the rest. -/
def take4Digits : List Char → Option (Nat × List Char)
  | a :: b :: c :: d :: rest =>
    if a.isDigit && b.isDigit && c.isDigit && d.isDigit then
      some (digitsVal [a, b, c, d], rest)
    else none
  | _ => none

/-- Consume exactly two digits (`\d{2}`). -/
def take2Digits : List Char → Option (Nat × List Char)
  | a :: b :: rest =>
    if a.isDigit && b.isDigit then some (digitsVal [a, b], rest) else none
  | _ => none

/-- Consume one or two digits, greedily (`\d{1,2}`).  Backtracking to the
one-digit reading can never help (the following literal is not a digit),
so the greedy reading is exact. -/
def take12Digits : List Char → Option (Nat × List Char)
  | a :: b :: rest =>
    if a.isDigit then
      if b.isDigit then some (digitsVal [a, b], rest) else some (digitVal a, b :: rest)
    else none
  | [a] => if a.isDigit then some (digitVal a, []) else none
  | [] => none

/-- Consume a literal character sequence. -/
def eatLit : List Char → List Char → Option (List Char)
  | [], l => some l
  | c :: cs, x :: xs => if x = c then eatLit cs xs else none
  | _ :: _, [] => none

/-- Match `(\d{4})年(\d{1,2})月(\d{1,2})日` anchored at the start. -/
def tryAbsCN (l : List Char) : Option (Nat × Nat × Nat) := do
  let (y, r1) ← take4Digits l
  let r2 ← eatLit ['年'] r1
  let (m, r3) ← take12Digits r2
  let r4 ← eatLit ['月'] r3
  let (d, r5) ← take12Digits r4
  let _ ← eatLit ['日'] r5
  pure (y, m, d)

/-- `re.search(r'(\d{4})年(\d{1,2})月(\d{1,2})日', text)`. -/
def searchAbsCN : List Char → Option (Nat × Nat × Nat)
  | [] => none
  | c :: rest =>
    match tryAbsCN (c :: rest) with
    | some v => some v
    | none => searchAbsCN rest

/-- Match `(\d{4})-(\d{2})-(\d{2})` anchored at the start (`re.match`). -/
def tryAbsISO (l : List Char) : Option (Nat × Nat × Nat) := do
  let (y, r1) ← take4Digits l
  let r2 ← eatLit ['-'] r1
  let (m, r3) ← take2Digits r2
  let r4 ← eatLit ['-'] r3
  let (d, _) ← take2Digits r4
  pure (y, m, d)

/-- `re.search(r'(\d{4})-(\d{2})-(\d{2})', text)`. -/
def searchAbsISO : List Char → Option (Nat × Nat × Nat)
  | [] => none
  | c :: rest =>
    match tryAbsISO (c :: rest) with
    | some v => some v
    | none => searchAbsISO rest

/-- Does one of `units` occur literally at the head of `l`?  This is the
alternation part of patterns such as `\d+\s*(小时|分钟|天|个月|秒)`. -/
def unitAtHead (units : List (List Char)) (l : List Char) : Bool :=
  units.any (fun u => u.isPrefixOf l)

/-- Match `(\d+)\s*(unit alternation)` anchored at the start: a maximal
digit run, maximal whitespace, then one of the unit literals.  (Regex
backtracking on `\d+` or `\s*` can never produce a match the greedy
reading misses, because the units start with a non-digit non-space
character.) -/
def tryNumUnit (units : List (List Char)) (l : List Char) : Option Nat :=
  if l.takeWhile Char.isDigit ≠ [] &&
      unitAtHead units ((l.dropWhile Char.isDigit).dropWhile isPySpace) then
    some (digitsVal (l.takeWhile Char.isDigit))
  else none

/-- `re.search` for `(\d+)\s*(unit alternation)`, returning the digit-run
value of the leftmost match. -/
def searchNumUnit (units : List (List Char)) : List Char → Option Nat
  | [] => none
  | c :: rest =>
    match tryNumUnit units (c :: rest) with
    | some n => some n
    | none => searchNumUnit units rest

/-! ## Calendar arithmetic (`datetime`)

A `datetime` value is embedded as an `Int` count of seconds: `86400 *`
(days since 1970-01-01, by the standard civil-calendar day-number
computation) plus the seconds elapsed in the day.  Comparison of two
`datetime`s is comparison of these counts. -/

/-- Leap-year test of the proleptic Gregorian calendar. -/
def isLeapYear (y : Nat) : Bool :=
  (y % 4 = 0 && y % 100 ≠ 0) || y % 400 = 0

/-- Days in a month (for `datetime`'s validity check). -/
def daysInMonth (y m : Nat) : Nat :=
  if m = 2 then (if isLeapYear y then 29 else 28)
  else if m = 4 || m = 6 || m = 9 || m = 11 then 30
  else 31

/-- `datetime(y, m, d)` raises `ValueError` unless this holds
(`MINYEAR = 1`, `MAXYEAR = 9999`). -/
def validDate (y m d : Nat) : Bool :=
  1 ≤ y && y ≤ 9999 && 1 ≤ m && m ≤ 12 && 1 ≤ d && d ≤ daysInMonth y m

/-- Day number of a civil date, with 1970-01-01 ↦ 0 (for `y ≥ 1`). -/
def daysFromCivil (y m d : Nat) : Int :=
  let y' := if m ≤ 2 then y - 1 else y
  let era := y' / 400
  let yoe := y' % 400
  let mp := if m > 2 then m - 3 else m + 9
  let doy := (153 * mp + 2) / 5 + d - 1
  let doe := yoe * 365 + yoe / 4 - yoe / 100 + doy
  (era * 146097 + doe : Int) - 719468

/-- Second count of `datetime(y, m, d)` (midnight). -/
def dateSec (y m d : Nat) : Int := 86400 * daysFromCivil y m d

/-! ## Markup stripping

`re.sub(r'<[^>]+>', '', text)`: at each `<`, the greedy `[^>]+` takes the
maximal run of non-`>` characters; the match succeeds when that run is
nonempty and followed by `>`.  On failure scanning resumes one character
later, so an unmatched `<` is kept. -/

/-- Recursion core of `stripTags`, with a character-count fuel so that the
recursion is structural (every step either keeps the head and recurses on
the tail, or skips a whole `<…>` tag, which is strictly shorter than the
tail). -/
def stripTagsGo : Nat → List Char → List Char
  | 0, l => l
  | _ + 1, [] => []
  | fuel + 1, c :: rest =>
    if c = '<' then
      match rest.dropWhile (· ≠ '>') with
      | '>' :: rest2 =>
        if rest.takeWhile (· ≠ '>') = [] then c :: stripTagsGo fuel rest
        else stripTagsGo fuel rest2
      | _ => c :: stripTagsGo fuel rest
    else c :: stripTagsGo fuel rest

/-- Remove every non-overlapping leftmost match of `<[^>]+>`. -/
def stripTags (l : List Char) : List Char := stripTagsGo l.length l

/-! ## `NewsFetcher._extract_time`

Seven patterns tried in order; the matched substring is returned.  Each
`tryT…` function reports the number of characters a match anchored at
the start would consume. -/

/-- Consume exactly `k` digits, returning the rest. -/
def eatDigits : Nat → List Char → Option (List Char)
  | 0, l => some l
  | k + 1, c :: rest => if c.isDigit then eatDigits k rest else none
  | _ + 1, [] => none

/-- Consume `\d{1,2}` greedily, returning the rest. -/
def eat12Digits : List Char → Option (List Char)
  | a :: b :: rest =>
    if a.isDigit then (if b.isDigit then some rest else some (b :: rest)) else none
  | [a] => if a.isDigit then some [] else none
  | [] => none

/-- Consume `\s+` (maximal, at least one), returning the rest. -/
def eatSpaces1 (l : List Char) : Option (List Char) :=
  if l.takeWhile isPySpace = [] then none else some (l.dropWhile isPySpace)

/-- `\d{4}-\d{2}-\d{2}\s+\d{2}:\d{2}` anchored at the start. -/
def tryTimeISO (l : List Char) : Option Nat := do
  let r1 ← eatDigits 4 l
  let r2 ← eatLit ['-'] r1
  let r3 ← eatDigits 2 r2
  let r4 ← eatLit ['-'] r3
  let r5 ← eatDigits 2 r4
  let r6 ← eatSpaces1 r5
  let r7 ← eatDigits 2 r6
  let r8 ← eatLit [':'] r7
  let r9 ← eatDigits 2 r8
  pure (l.length - r9.length)

/-- `\d{4}年\d{1,2}月\d{1,2}日` anchored at the start. -/
def tryTimeCN (l : List Char) : Option Nat := do
  let r1 ← eatDigits 4 l
  let r2 ← eatLit ['年'] r1
  let r3 ← eat12Digits r2
  let r4 ← eatLit ['月'] r3
  let r5 ← eat12Digits r4
  let r6 ← eatLit ['日'] r5
  pure (l.length - r6.length)

/-- `\d{1,2}(unit literal)` anchored at the start (hours / minutes / days ago). -/
def tryTimeRel (unit : List Char) (l : List Char) : Option Nat := do
  let r1 ← eat12Digits l
  let r2 ← eatLit unit r1
  pure (l.length - r2.length)

/-- `(今天|昨天)\s*\d{2}:\d{2}` anchored at the start. -/
def tryTimeDay (word : List Char) (l : List Char) : Option Nat := do
  let r1 ← eatLit word l
  let r2 := r1.dropWhile isPySpace
  let r3 ← eatDigits 2 r2
  let r4 ← eatLit [':'] r3
  let r5 ← eatDigits 2 r4
  pure (l.length - r5.length)

/-- `re.search` returning the matched substring. -/
def scanFirst (tryAt : List Char → Option Nat) : List Char → Option (List Char)
  | [] => none
  | c :: rest =>
    match tryAt (c :: rest) with
    | some n => some ((c :: rest).take n)
    | none => scanFirst tryAt rest

/-- `NewsFetcher._extract_time`: first pattern that matches anywhere wins;
the matched text is returned, or `""`. -/
def extractTime (text : String) : String :=
  let pats : List (List Char → Option Nat) :=
    [tryTimeISO, tryTimeCN,
     tryTimeRel ['小', '时', '前'], tryTimeRel ['分', '钟', '前'],
     tryTimeRel ['天', '前'],
     tryTimeDay ['今', '天'], tryTimeDay ['昨', '天']]
  match pats.findSome? (fun p => scanFirst p text.data) with
  | some m => String.mk m
  | none => ""

/-! ## MD5 (`hashlib.md5(title.encode("utf-8")).hexdigest()`)

All 32-bit arithmetic is `Nat` arithmetic modulo `2 ^ 32`. -/

/-- UTF-8 bytes of one code point (`str.encode("utf-8")`). -/
def utf8Bytes (c : Char) : List Nat :=
  let n := c.toNat
  if n < 0x80 then [n]
  else if n < 0x800 then [0xC0 ||| (n >>> 6), 0x80 ||| (n &&& 0x3F)]
  else if n < 0x10000 then
    [0xE0 ||| (n >>> 12), 0x80 ||| ((n >>> 6) &&& 0x3F), 0x80 ||| (n &&& 0x3F)]
  else
    [0xF0 ||| (n >>> 18), 0x80 ||| ((n >>> 12) &&& 0x3F),
     0x80 ||| ((n >>> 6) &&& 0x3F), 0x80 ||| (n &&& 0x3F)]

/-- UTF-8 encoding of a string. -/
def utf8Encode (l : List Char) : List Nat :=
  l.foldr (fun c acc => utf8Bytes c ++ acc) []

/-- The 64 MD5 sine constants. -/
def md5K : List Nat :=
  [3614090360, 3905402710, 606105819, 3250441966,
   4118548399, 1200080426, 2821735955, 4249261313,
   1770035416, 2336552879, 4294925233, 2304563134,
   1804603682, 4254626195, 2792965006, 1236535329,
   4129170786, 3225465664, 643717713, 3921069994,
   3593408605, 38016083, 3634488961, 3889429448,
   568446438, 3275163606, 4107603335, 1163531501,
   2850285829, 4243563512, 1735328473, 2368359562,
   4294588738, 2272392833, 1839030562, 4259657740,
   2763975236, 1272893353, 4139469664, 3200236656,
   681279174, 3936430074, 3572445317, 76029189,
   3654602809, 3873151461, 530742520, 3299628645,
   4096336452, 1126891415, 2878612391, 4237533241,
   1700485571, 2399980690, 4293915773, 2240044497,
   1873313359, 4264355552, 2734768916, 1309151649,
   4149444226, 3174756917, 718787259, 3951481745]

/-- The 64 MD5 per-round left-rotation amounts. -/
def md5S : List Nat :=
  [7, 12, 17, 22, 7, 12, 17, 22, 7, 12, 17, 22, 7, 12, 17, 22,
   5, 9, 14, 20, 5, 9, 14, 20, 5, 9, 14, 20, 5, 9, 14, 20,
   4, 11, 16, 23, 4, 11, 16, 23, 4, 11, 16, 23, 4, 11, 16, 23,
   6, 10, 15, 21, 6, 10, 15, 21, 6, 10, 15, 21, 6, 10, 15, 21]

/-- 32-bit left rotation. -/
def rotl32 (x s : Nat) : Nat :=
  ((x <<< s) ||| (x >>> (32 - s))) % 4294967296

/-- MD5 nonlinear function of round `i`. -/
def md5F (i b c d : Nat) : Nat :=
  if i < 16 then (b &&& c) ||| ((b ^^^ 0xFFFFFFFF) &&& d)
  else if i < 32 then (d &&& b) ||| ((d ^^^ 0xFFFFFFFF) &&& c)
  else if i < 48 then b ^^^ c ^^^ d
  else c ^^^ (b ||| (d ^^^ 0xFFFFFFFF))

/-- MD5 message-word index of round `i`. -/
def md5G (i : Nat) : Nat :=
  if i < 16 then i
  else if i < 32 then (5 * i + 1) % 16
  else if i < 48 then (3 * i + 5) % 16
  else (7 * i) % 16

/-- Little-endian 32-bit word `j` of a 64-byte chunk. -/
def md5Word (chunk : List Nat) (j : Nat) : Nat :=
  chunk.getD (4 * j) 0 + 256 * chunk.getD (4 * j + 1) 0 +
    65536 * chunk.getD (4 * j + 2) 0 + 16777216 * chunk.getD (4 * j + 3) 0

/-- One MD5 round. -/
def md5Round (chunk : List Nat) (st : Nat × Nat × Nat × Nat) (i : Nat) :
    Nat × Nat × Nat × Nat :=
  let (a, b, c, d) := st
  let f := (md5F i b c d + a + md5K.getD i 0 + md5Word chunk (md5G i)) % 4294967296
  (d, (b + rotl32 f (md5S.getD i 0)) % 4294967296, b, c)

/-- Process one 64-byte chunk. -/
def md5Chunk (st : Nat × Nat × Nat × Nat) (chunk : List Nat) :
    Nat × Nat × Nat × Nat :=
  let (a0, b0, c0, d0) := st
  let (a, b, c, d) := (List.range 64).foldl (md5Round chunk) st
  ((a0 + a) % 4294967296, (b0 + b) % 4294967296,
   (c0 + c) % 4294967296, (d0 + d) % 4294967296)

/-- Fold over the 64-byte chunks of the padded message. -/
def md5Chunks (st : Nat × Nat × Nat × Nat) (bytes : List Nat) :
    Nat × Nat × Nat × Nat :=
  match bytes with
  | [] => st
  | b :: rest => md5Chunks (md5Chunk st ((b :: rest).take 64)) (rest.drop 63)
termination_by bytes.length
decreasing_by simp [List.length_drop]; omega

/-- `k` little-endian bytes of `n`. -/
def leBytes (k n : Nat) : List Nat :=
  (List.range k).map (fun i => (n >>> (8 * i)) % 256)

/-- MD5 padding: `0x80`, zeros to 56 mod 64, then the 64-bit bit length. -/
def md5Pad (msg : List Nat) : List Nat :=
  msg ++ [0x80] ++ List.replicate ((119 - msg.length % 64) % 64) 0 ++
    leBytes 8 ((msg.length * 8) % 18446744073709551616)

/-- Lowercase hex digit. -/
def hexChar (n : Nat) : Char :=
  if n < 10 then Char.ofNat ('0'.toNat + n) else Char.ofNat ('a'.toNat + n - 10)

/-- `hexdigest()` of an MD5 state. -/
def md5HexOfState (st : Nat × Nat × Nat × Nat) : String :=
  let (a, b, c, d) := st
  let bytes := leBytes 4 a ++ leBytes 4 b ++ leBytes 4 c ++ leBytes 4 d
  String.mk (bytes.foldr (fun b acc => hexChar (b / 16) :: hexChar (b % 16) :: acc) [])

/-- `hashlib.md5(bytes).hexdigest()`. -/
def md5Hex (msg : List Nat) : String :=
  md5HexOfState (md5Chunks (1732584193, 4023233417, 2562383102, 271733878) (md5Pad msg))

/-! ## Data model: `NewsItem` -/

/-- `news_fetcher.NewsItem` (the `fetched_at` timestamp field is a
creation-time string irrelevant to the verified behavior and carried
as-is). -/
structure NewsItem where
  title : String
  url : String
  source : String
  industry : String
  summary : String := ""
  publish_time : String := ""
  fetched_at : String := ""
  deriving DecidableEq, Repr

/-- `NewsItem.uid`: the MD5 hex digest of the UTF-8 encoded title. -/
def NewsItem.uid (item : NewsItem) : String :=
  md5Hex (utf8Encode item.title.data)

/-! ## Taxonomy (`config.INDUSTRIES`, declaration order) -/

/-- `config.INDUSTRIES` as an ordered label → keyword-list table (the
`emoji` display glyph is not consulted by any verified function). -/
def INDUSTRIES : List (String × List String) :=
  [("人工智能", ["人工智能", "AI大模型", "深度学习", "机器学习", "AIGC", "生成式AI", "智能算力", "大语言模型"]),
   ("半导体与芯片", ["半导体", "芯片", "集成电路", "光刻机", "EDA", "先进封装", "晶圆", "国产芯片"]),
   ("新能源", ["新能源", "光伏", "风电", "储能", "氢能", "新能源汽车", "动力电池", "充电桩"]),
   ("生物医药", ["生物医药", "创新药", "基因治疗", "细胞治疗", "mRNA", "医疗器械", "精准医疗"]),
   ("数字经济", ["数字经济", "数字化转型", "工业互联网", "数据要素", "数字人民币", "智慧城市", "数字基建"]),
   ("高端装备制造", ["高端装备", "智能制造", "工业机器人", "数控机床", "3D打印", "增材制造", "柔性制造"]),
   ("航空航天", ["航空航天", "商业航天", "卫星互联网", "低空经济", "无人机", "大飞机", "航空发动机"]),
   ("新材料", ["新材料", "碳纤维", "石墨烯", "稀土", "先进陶瓷", "超导材料", "纳米材料"]),
   ("绿色低碳", ["碳中和", "碳达峰", "绿色低碳", "碳交易", "节能减排", "环保", "清洁能源", "ESG"]),
   ("量子科技", ["量子计算", "量子通信", "量子科技", "量子密钥", "量子芯片", "量子优势"])]

/-- `funding_fetcher._match_industry`'s `extended_mapping` table. -/
def extendedMapping : List (String × List String) :=
  [("人工智能", ["AI", "大模型", "机器人", "智能体", "算力", "算法", "GPT", "LLM"]),
   ("半导体与芯片", ["芯片", "半导体", "晶圆", "EDA", "光刻"]),
   ("新能源", ["电池", "光伏", "风电", "储能", "充电", "新能源车"]),
   ("生物医药", ["医药", "医疗", "生物", "基因", "药物", "诊断", "疫苗"]),
   ("航空航天", ["航天", "火箭", "卫星", "无人机", "低空"]),
   ("高端装备制造", ["机器人", "制造", "自动化", "数控"]),
   ("量子科技", ["量子"]),
   ("新材料", ["材料", "碳纤维", "石墨烯", "稀土"]),
   ("数字经济", ["数字化", "数据", "云计算", "SaaS"]),
   ("绿色低碳", ["碳中和", "环保", "清洁", "ESG"])]

/-- Python's `needle in haystack` on strings: contiguous-substring
containment (true for the empty needle). -/
def containsSub : List Char → List Char → Bool
  | needle, [] => needle.isEmpty
  | needle, c :: rest => needle.isPrefixOf (c :: rest) || containsSub needle rest

/-- Inner loop of `_match_industry`: `for keyword in keywords: if keyword
in text: return industry` (Python `in` is substring containment). -/
def keywordHit : List String → String → Bool
  | [], _ => false
  | kw :: rest, text =>
    if containsSub kw.data text.data then true else keywordHit rest text

/-- Outer loop of `_match_industry` over a keyword table in declaration
order: the first entry with a matching keyword wins. -/
def matchTaxonomy : List (String × List String) → String → Option String
  | [], _ => none
  | (label, kws) :: rest, text =>
    if keywordHit kws text then some label else matchTaxonomy rest text

/-- `NewsFetcher._match_industry` (primary table only). -/
def newsMatchIndustry (text : String) : Option String :=
  matchTaxonomy INDUSTRIES text

/-- `FundingFetcher._match_industry` (primary table, then the extended
table, then `None`). -/
def fundingMatchIndustry (text : String) : Option String :=
  match matchTaxonomy INDUSTRIES text with
  | some ind => some ind
  | none => matchTaxonomy extendedMapping text

/-! ## `NewsFetcher._is_news_too_old` -/

/-- `NEWS_MAX_AGE_DAYS = 3`. -/
def NEWS_MAX_AGE_DAYS : Nat := 3

/-- The `if news_date < cutoff: return True` check of the `YYYY年M月D日`
branch; a `ValueError` from `datetime` (invalid date) is caught and
falls through. -/
def staleAbsCN (cutoff : Int) (text : List Char) : Bool :=
  match searchAbsCN text with
  | some (y, m, d) => validDate y m d && decide (dateSec y m d < cutoff)
  | none => false

/-- Same check for the `YYYY-MM-DD` branch. -/
def staleAbsISO (cutoff : Int) (text : List Char) : Bool :=
  match searchAbsISO text with
  | some (y, m, d) => validDate y m d && decide (dateSec y m d < cutoff)
  | none => false

/-- `"X天前"` / `"X 天"` branch: stale when `X > NEWS_MAX_AGE_DAYS`. -/
def staleDays (text : List Char) : Bool :=
  match searchNumUnit [['天']] text with
  | some n => decide (n > NEWS_MAX_AGE_DAYS)
  | none => false

/-- `"X个月前"` / `"X 个月"` branch: any match is stale. -/
def staleMonths (text : List Char) : Bool :=
  (searchNumUnit [['个', '月']] text).isSome

/-- One pass of the `for text in check_texts` body: the four dated
patterns in code order, each `return True` becoming a disjunct. -/
def textStale (cutoff : Int) (text : List Char) : Bool :=
  staleAbsCN cutoff text || staleAbsISO cutoff text ||
    staleDays text || staleMonths text

/-- `NewsFetcher._is_news_too_old`, with `datetime.now()` passed in as the
second count `now`.  `check_texts = [publish_time, summary]`; if no branch
returns `True` the item is kept. -/
def isNewsTooOld (now : Int) (item : NewsItem) : Bool :=
  let cutoff := now - 86400 * (NEWS_MAX_AGE_DAYS : Int)
  textStale cutoff item.publish_time.data || textStale cutoff item.summary.data

/-! ## `NewsFetcher._deduplicate`

The mutable `self.seen_uids` set is threaded as an explicit list of
already-recorded fingerprints (membership is all that is used). -/

/-- `_deduplicate`: skip items whose uid was seen; of the unseen ones,
drop stale items *without* recording their uid; record and keep the
rest, in order. -/
def deduplicate (now : Int) : List String → List NewsItem →
    List NewsItem × List String
  | seen, [] => ([], seen)
  | seen, item :: rest =>
    if item.uid ∈ seen then deduplicate now seen rest
    else if isNewsTooOld now item then deduplicate now seen rest
    else
      let (kept, seenOut) := deduplicate now (seen ++ [item.uid]) rest
      (item :: kept, seenOut)

/-! ## Provider parsers

BeautifulSoup element selection is not embeddable; each parser is
modelled from the point where the code has extracted the relevant
element texts of one search-result fragment (`get_text(strip=True)`
results and `href` attributes), which is exactly the data the per-item
`try` body manipulates.  A skipped fragment (`continue`) becomes `none`.
-/

/-- Data of one Baidu result container (present when the `h3` link has a
grandparent element): the optional content element's text, the optional
source element's text, and the container's full text. -/
structure BaiduContainer where
  contentText : Option String
  sourceText : Option String
  fullText : String
  deriving DecidableEq, Repr

/-- One Baidu `h3 a` fragment. -/
structure BaiduFragment where
  titleText : String
  href : String
  container : Option BaiduContainer
  deriving DecidableEq, Repr

/-- Per-fragment body of `NewsFetcher._fetch_from_baidu_news`. -/
def baiduParseFragment (industry : String) (f : BaiduFragment) : Option NewsItem :=
  if String.mk (pyStrip (stripTags f.titleText.data)) = "" ∨
      (String.mk (pyStrip (stripTags f.titleText.data))).length < 4 ∨ f.href = "" then
    none
  else
    some { title := String.mk (pyStrip (stripTags f.titleText.data)), url := f.href,
           source := match f.container with
             | some c => c.sourceText.getD "百度新闻"
             | none => "百度新闻",
           industry := industry,
           summary := match f.container with
             | some c => match c.contentText with
               | some s => String.mk ((stripTags s.data).take 200)
               | none => ""
             | none => "",
           publish_time := match f.container with
             | some c => extractTime c.fullText
             | none => "" }

/-- `urljoin(base, href)` for the root-relative hrefs the code joins
(`href.startswith("/")`): protocol-relative `//…` keeps the base scheme,
otherwise the href is appended to the authority. -/
def pyUrljoin (base href : String) : String :=
  if href.startsWith "//" then "https:" ++ href else base ++ href

/-- One Bing news-card fragment: the title link (text and href) if a
title tag was found, the optional snippet element text, and the texts of
the `div.source` spans (`none` when there is no source div). -/
structure BingFragment where
  titleTag : Option (String × String)
  snippetText : Option String
  sourceSpans : Option (List String)
  deriving DecidableEq, Repr

/-- The time-word pattern `\d+\s*(小时|分钟|天|个月|秒)` used to tell
source spans from time spans. -/
def bingTimeUnits : List (List Char) :=
  [['小', '时'], ['分', '钟'], ['天'], ['个', '月'], ['秒']]

/-- Per-fragment body of `NewsFetcher._fetch_from_bing_news`. -/
def bingParseFragment (industry : String) (f : BingFragment) : Option NewsItem :=
  match f.titleTag with
  | none => none
  | some (title, href) =>
    if title = "" ∨ href = "" then none
    else
      some { title := title,
             url := if href.startsWith "/" then pyUrljoin "https://www.bing.com" href
               else href,
             source := match ((f.sourceSpans.getD []).filter (fun s => s ≠ "")).find?
                 (fun t => (searchNumUnit bingTimeUnits t.data).isNone) with
               | some t => t
               | none => "Bing新闻",
             industry := industry,
             summary := f.snippetText.getD "",
             publish_time :=
               ((((f.sourceSpans.getD []).filter (fun s => s ≠ "")).getLast?)).getD "" }

/-- One Sogou result fragment. -/
structure SogouFragment where
  titleTag : Option (String × String)
  summaryText : Option String
  fromSpans : Option (List String)
  deriving DecidableEq, Repr

/-- Per-fragment body of `NewsFetcher._fetch_from_sogou_news`. -/
def sogouParseFragment (industry : String) (f : SogouFragment) : Option NewsItem :=
  match f.titleTag with
  | none => none
  | some (rawTitle, href) =>
    if String.mk (pyStrip (stripTags rawTitle.data)) = "" ∨
        (String.mk (pyStrip (stripTags rawTitle.data))).length < 4 ∨ href = "" then
      none
    else
      some { title := String.mk (pyStrip (stripTags rawTitle.data)),
             url := if href.startsWith "/" then pyUrljoin "https://news.sogou.com" href
               else href,
             source := (((f.fromSpans.getD []).filter (fun s => s ≠ "")).head?).getD "搜狗新闻",
             industry := industry,
             summary := String.mk ((stripTags (f.summaryText.getD "").data).take 200),
             publish_time :=
               if ((f.fromSpans.getD []).filter (fun s => s ≠ "")).length > 1 then
                 ((((f.fromSpans.getD []).filter (fun s => s ≠ "")).getLast?)).getD ""
               else "" }

/-- One RSS feed entry (`entry.get("title"/"link"/"summary"/"published")`). -/
structure RssEntry where
  title : String
  link : String
  summary : String
  published : String
  deriving DecidableEq, Repr

/-- Per-entry body of `NewsFetcher.fetch_from_rss`: clean and cap the
summary, classify `title + summary`, drop the entry on a classification
miss. -/
def rssEntryToItem (sourceName : String) (e : RssEntry) : Option NewsItem :=
  if e.title = "" ∨ e.link = "" then none
  else
    match newsMatchIndustry (e.title ++ String.mk ((stripTags e.summary.data).take 200)) with
    | some ind =>
      some { title := e.title, url := e.link, source := sourceName, industry := ind,
             summary := String.mk ((stripTags e.summary.data).take 200),
             publish_time := e.published }
    | none => none

/-! ## Fetch orchestration

Each network provider is abstracted as an oracle `keyword → industry →
Except String (List NewsItem)`: `Except.error` stands for a raised
exception (or, equivalently for the caller, any malformed/non-200
response path, which the per-provider function already turns into zero
items); `Except.ok l` stands for a normal return of `l`. -/

/-- `NewsFetcher._fetch_industry_news`.  Sogou is queried on
`keywords[0]` (an empty keyword list raises `IndexError`, caught by the
same `except`), Baidu on `keywords[:2]`, Bing on `keywords[0]`; each
call's failure is absorbed as zero items; the concatenation is passed
through `_deduplicate`. -/
def fetchIndustryNews (now : Int) (seen : List String) (industry : String)
    (keywords : List String)
    (sogouFetch baiduFetch bingFetch : String → String → Except String (List NewsItem)) :
    List NewsItem × List String :=
  deduplicate now seen
    ((match keywords.head? with
      | none => []
      | some k => match sogouFetch k industry with
        | .ok l => l
        | .error _ => []) ++
     (keywords.take 2).foldl
       (fun acc k => match baiduFetch k industry with
         | .ok l => acc ++ l
         | .error _ => acc) [] ++
     (match keywords.head? with
      | none => []
      | some k => match bingFetch k industry with
        | .ok l => l
        | .error _ => []))

/-- `NewsFetcher.fetch_from_rss`: each feed's parse outcome is an
`Except` (an exception or a bozo feed without entries contributes
nothing); at most 20 entries per feed are converted; the collected items
are deduplicated. -/
def fetchFromRss (now : Int) (seen : List String)
    (feeds : List (String × Except String (List RssEntry))) :
    List NewsItem × List String :=
  deduplicate now seen
    (feeds.foldl
      (fun acc f => match f.2 with
        | .error _ => acc
        | .ok entries => acc ++ (entries.take 20).filterMap (rssEntryToItem f.1)) [])

/-- Total number of items in a label → items mapping. -/
def totalLen (m : List (String × List NewsItem)) : Nat :=
  (m.map (fun p => p.2.length)).sum

/-- Loop body of `NewsFetcher.fetch_all`, with the per-industry fetch
outcome abstracted as `fetch` and the running `total_count` made
explicit.  The cap test sits at the top of the loop (`break`); an empty
per-industry result is not bound; a non-empty one is truncated to
`maxPer` (`MAX_NEWS_PER_INDUSTRY`) and its truncated length added to the
total. -/
def fetchAllGo (fetch : String → List String → List NewsItem) (maxPer maxTotal : Nat) :
    List (String × List String) → Nat → List (String × List NewsItem)
  | [], _ => []
  | (industry, kws) :: rest, total =>
    if total ≥ maxTotal then []
    else
      let news := fetch industry kws
      if news.isEmpty then fetchAllGo fetch maxPer maxTotal rest total
      else (industry, news.take maxPer) ::
        fetchAllGo fetch maxPer maxTotal rest (total + (news.take maxPer).length)

/-- `NewsFetcher.fetch_all` over a given industry table and caps
(`MAX_NEWS_PER_INDUSTRY = 5`, `MAX_TOTAL_NEWS = 50` in `config`). -/
def fetchAll (fetch : String → List String → List NewsItem)
    (industries : List (String × List String)) (maxPer maxTotal : Nat) :
    List (String × List NewsItem) :=
  fetchAllGo fetch maxPer maxTotal industries 0

/-- Dict lookup on the label → items mapping. -/
def lookupKey (m : List (String × List NewsItem)) (k : String) :
    Option (List NewsItem) :=
  (m.find? (fun p => p.1 = k)).map (fun p => p.2)

/-- In-place append to the list bound to key `k`. -/
def updateAppend (m : List (String × List NewsItem)) (k : String) (it : NewsItem) :
    List (String × List NewsItem) :=
  m.map (fun p => if p.1 = k then (p.1, p.2 ++ [it]) else p)

/-- RSS merge body of `fetch_news`: an item of a known industry is
appended only while that industry holds fewer than `maxPer` items; an
unknown industry becomes a new (singleton) binding. -/
def mergeRssItem (maxPer : Nat) (m : List (String × List NewsItem)) (it : NewsItem) :
    List (String × List NewsItem) :=
  match lookupKey m it.industry with
  | some l => if l.length < maxPer then updateAppend m it.industry it else m
  | none => m ++ [(it.industry, [it])]

/-- `fetch_news`: search-engine results from `fetch_all`, then the RSS
items merged in (the whole RSS step absorbed on exception). -/
def fetchNews (fetch : String → List String → List NewsItem)
    (rss : Except String (List NewsItem))
    (industries : List (String × List String)) (maxPer maxTotal : Nat) :
    List (String × List NewsItem) :=
  let searchNews := fetchAll fetch industries maxPer maxTotal
  match rss with
  | .error _ => searchNews
  | .ok rssItems => rssItems.foldl (mergeRssItem maxPer) searchNews

/-! ## `funding_fetcher` -/

/-- `funding_fetcher.FundingEvent`. -/
structure FundingEvent where
  company : String
  title : String
  url : String
  event_type : String
  round : String := ""
  amount : String := ""
  industry : String := ""
  publish_time : String := ""
  summary : String := ""
  deriving DecidableEq, Repr

/-- Industry-matching step of `FundingFetcher.fetch_all`: classify
`title + summary + company`; events without a match are dropped, matched
events get their `industry` field set. -/
def matchEvents (events : List FundingEvent) : List FundingEvent :=
  events.filterMap (fun e =>
    match fundingMatchIndustry (e.title ++ e.summary ++ e.company) with
    | some ind => some { e with industry := ind }
    | none => none)

/-- `/(\d{4})(\d{2})/` anchored at the start, capturing the digit chars. -/
def tryDateUrl : List Char → Option (List Char × List Char)
  | '/' :: a :: b :: c :: d :: e :: f :: '/' :: _ =>
    if a.isDigit && b.isDigit && c.isDigit && d.isDigit && e.isDigit && f.isDigit then
      some ([a, b, c, d], [e, f])
    else none
  | _ => none

/-- `re.search(r'/(\d{4})(\d{2})/', url)`. -/
def searchDateUrl : List Char → Option (List Char × List Char)
  | [] => none
  | c :: rest =>
    match tryDateUrl (c :: rest) with
    | some v => some v
    | none => searchDateUrl rest

/-- `FundingFetcher._extract_date_from_url`: `/YYYYMM/` becomes
`"YYYY-MM"`, otherwise `""`. -/
def extractDateFromUrl (url : String) : String :=
  match searchDateUrl url.data with
  | some (y4, m2) => String.mk (y4 ++ '-' :: m2)
  | none => ""

/-- `datetime.now()` as a civil date plus the seconds elapsed in the day. -/
structure PyDateTime where
  year : Nat
  month : Nat
  day : Nat
  secOfDay : Nat
  deriving DecidableEq, Repr

/-- Second count of a `PyDateTime` (the embedding of `datetime` order). -/
def PyDateTime.toSec (t : PyDateTime) : Int :=
  86400 * daysFromCivil t.year t.month t.day + t.secOfDay

/-- `FUNDING_MAX_AGE_DAYS = 7`. -/
def FUNDING_MAX_AGE_DAYS : Nat := 7

/-- `re.match(r'(\d{4})-(\d{2})$', s)`: exactly four digits, `-`, two
digits, end of string. -/
def parseYMExact : List Char → Option (Nat × Nat)
  | [a, b, c, d, e, f, g] =>
    if a.isDigit && b.isDigit && c.isDigit && d.isDigit && e = '-' &&
        f.isDigit && g.isDigit then
      some (digitsVal [a, b, c, d], digitsVal [f, g])
    else none
  | _ => none

/-- `YYYY-MM` branch of `FundingFetcher._is_too_old`: keep the current
month or any later month of the current year (`month >= now.month - 1`
over Python ints is `m + 1 ≥ now.month` over `Nat`), keep December of the
previous year when it is January; everything else is stale. -/
def fundingYMBranch (now : PyDateTime) (publishTime : String) : Bool :=
  match parseYMExact publishTime.data with
  | some (y, m) =>
    if y = now.year && m + 1 ≥ now.month then false
    else if y + 1 = now.year && now.month = 1 && m = 12 then false
    else true
  | none => false

/-- `FundingFetcher._is_too_old`: an anchored `YYYY-MM-DD` prefix is
compared against `now - 7 days` (a `ValueError` on an invalid date falls
through), otherwise an exact `YYYY-MM` goes through the month branch;
anything unparseable is kept. -/
def fundingIsTooOld (now : PyDateTime) (publishTime : String) : Bool :=
  let cutoff := now.toSec - 86400 * (FUNDING_MAX_AGE_DAYS : Int)
  match tryAbsISO publishTime.data with
  | some (y, m, d) =>
    if validDate y m d then decide (dateSec y m d < cutoff)
    else fundingYMBranch now publishTime
  | none => fundingYMBranch now publishTime

/-! ## The spec's first-success-wins staleness policy (claim C2)

Modelled from the spec's words, for comparison against
`isNewsTooOld`: one ordered list of (pattern, interpreter) pairs,
absolute-date patterns before relative-date patterns, tried against
`publish_time` first and then the summary, the FIRST successful parse
deciding staleness. -/

/-- Interpreter of the `YYYY年M月D日` pattern: parses to a verdict
(`some stale?`), or fails. -/
def specVerdictCN (cutoff : Int) (text : List Char) : Option Bool :=
  match searchAbsCN text with
  | some (y, m, d) =>
    if validDate y m d then some (decide (dateSec y m d < cutoff)) else none
  | none => none

/-- Interpreter of the `YYYY-MM-DD` pattern. -/
def specVerdictISO (cutoff : Int) (text : List Char) : Option Bool :=
  match searchAbsISO text with
  | some (y, m, d) =>
    if validDate y m d then some (decide (dateSec y m d < cutoff)) else none
  | none => none

/-- Interpreter of the `N天` pattern: stale iff `N > 3`. -/
def specVerdictDays (text : List Char) : Option Bool :=
  (searchNumUnit [['天']] text).map (fun n => decide (n > NEWS_MAX_AGE_DAYS))

/-- Interpreter of the `N个月` pattern: always stale. -/
def specVerdictMonths (text : List Char) : Option Bool :=
  if (searchNumUnit [['个', '月']] text).isSome then some true else none

/-- First successful interpreter on one text, in the fixed priority
order (absolute before relative). -/
def specVerdict (cutoff : Int) (text : List Char) : Option Bool :=
  match specVerdictCN cutoff text with
  | some b => some b
  | none => match specVerdictISO cutoff text with
    | some b => some b
    | none => match specVerdictDays text with
      | some b => some b
      | none => specVerdictMonths text

/-- The claim's staleness policy: `publish_time` first, then the
summary, first success wins, unknown defaults to fresh. -/
def specIsStale (now : Int) (item : NewsItem) : Bool :=
  let cutoff := now - 86400 * (NEWS_MAX_AGE_DAYS : Int)
  match specVerdict cutoff item.publish_time.data with
  | some b => b
  | none => (specVerdict cutoff item.summary.data).getD false

/-! ## Concrete sample inputs used by the counterexamples and witnesses -/

/-- A fetch outcome yielding six acceptable items for every label. -/
def sixItemFetch : String → List String → List NewsItem :=
  fun _ _ => List.replicate 6 { title := "条目", url := "u", source := "s", industry := "x" }

/-- Three labels in declaration order, as in the spec's global-cap scenario. -/
def threeLabels : List (String × List String) :=
  [("A", []), ("B", []), ("C", [])]

/-- `datetime.now()` for the staleness counterexample: midnight 2026-10-12. -/
def sampleNow : Int := dateSec 2026 10 12

/-- An item whose `publish_time` is a fresh absolute date while its summary
contains a relative month expression. -/
def freshDateStaleSummaryItem : NewsItem :=
  { title := "芯片新突破", url := "u", source := "s", industry := "半导体与芯片",
    summary := "2个月前", publish_time := "2026-10-12" }

/-- A Bing fragment whose snippet element text has 201 characters. -/
def longSnippetBingFragment : BingFragment :=
  { titleTag := some ("人工智能重大进展", "https:u"),
    snippetText := some (String.mk (List.replicate 201 'x')),
    sourceSpans := none }

/-- A Bing fragment whose title has only 2 characters. -/
def shortTitleBingFragment : BingFragment :=
  { titleTag := some ("AI", "https:u"), snippetText := none, sourceSpans := none }

/-- A plain Baidu fragment without a result container. -/
def sampleBaiduFragment : BaiduFragment :=
  { titleText := "人工智能产业迎来新进展", href := "https:u", container := none }

/-- The item `sampleBaiduFragment` parses to. -/
def sampleBaiduItem : NewsItem :=
  { title := "人工智能产业迎来新进展", url := "https:u", source := "百度新闻",
    industry := "AI行业", summary := "", publish_time := "" }

/-- A fetch outcome with one item for the first industry only. -/
def singleItemFetch : String → List String → List NewsItem :=
  fun ind _ =>
    if ind = "人工智能" then
      [{ title := "人工智能新闻一则", url := "u", source := "s", industry := "人工智能" }]
    else []

/-- A stale item (relative date beyond the window) for the dedup witness. -/
def staleQuantumItem : NewsItem :=
  { title := "量子计算新进展", url := "u1", source := "s", industry := "i",
    publish_time := "4天前" }

/-- A fresh item with the same title as `staleQuantumItem`. -/
def freshQuantumItem : NewsItem :=
  { title := "量子计算新进展", url := "u2", source := "s", industry := "i",
    publish_time := "1小时前" }

/-! # Theorems

First, helper lemmas about the scanners. -/

theorem eatLit_single_eq_none {ch : Char} {l : List Char} (h : ch ∉ l) :
    eatLit [ch] l = none := by
  cases l with
  | nil => rfl
  | cons x xs =>
    have hx : ¬ x = ch := by
      intro he; exact h (he ▸ List.mem_cons_self x xs)
    simp [eatLit, hx]

theorem tryAbsCN_eq_none {l : List Char} (h : '年' ∉ l) : tryAbsCN l = none := by
  unfold tryAbsCN
  rcases l with _ | ⟨a, _ | ⟨b, _ | ⟨c, _ | ⟨d, rest⟩⟩⟩⟩ <;>
    simp only [take4Digits, Option.bind_eq_bind, Option.none_bind, bind] <;>
    try rfl
  split
  · have hrest : '年' ∉ rest := by
      intro hm
      exact h (by simp [hm])
    simp [eatLit_single_eq_none hrest]
  · rfl

theorem searchAbsCN_eq_none {l : List Char} (h : '年' ∉ l) : searchAbsCN l = none := by
  induction l with
  | nil => rfl
  | cons c rest ih =>
    have hr : '年' ∉ rest := fun hm => h (List.mem_cons_of_mem _ hm)
    simp [searchAbsCN, tryAbsCN_eq_none h, ih hr]

theorem tryAbsISO_eq_none {l : List Char} (h : '-' ∉ l) : tryAbsISO l = none := by
  unfold tryAbsISO
  rcases l with _ | ⟨a, _ | ⟨b, _ | ⟨c, _ | ⟨d, rest⟩⟩⟩⟩ <;>
    simp only [take4Digits, Option.bind_eq_bind, Option.none_bind, bind] <;>
    try rfl
  split
  · have hrest : '-' ∉ rest := by
      intro hm
      exact h (by simp [hm])
    simp [eatLit_single_eq_none hrest]
  · rfl

theorem searchAbsISO_eq_none {l : List Char} (h : '-' ∉ l) : searchAbsISO l = none := by
  induction l with
  | nil => rfl
  | cons c rest ih =>
    have hr : '-' ∉ rest := fun hm => h (List.mem_cons_of_mem _ hm)
    simp [searchAbsISO, tryAbsISO_eq_none h, ih hr]

theorem tryNumUnit_single_eq_none {u0 : Char} {u l : List Char} (h : u0 ∉ l) :
    tryNumUnit [u0 :: u] l = none := by
  unfold tryNumUnit unitAtHead
  have hsub : (l.dropWhile Char.isDigit).dropWhile isPySpace <:+ l :=
    (List.dropWhile_suffix _).trans (List.dropWhile_suffix _)
  have hpre : (u0 :: u).isPrefixOf ((l.dropWhile Char.isDigit).dropWhile isPySpace) = false := by
    cases hd : (l.dropWhile Char.isDigit).dropWhile isPySpace with
    | nil => rfl
    | cons x xs =>
      have hx : ¬ u0 = x := by
        intro he
        exact h (hsub.subset (hd ▸ he ▸ List.mem_cons_self x xs))
      simp [List.isPrefixOf, hx, beq_iff_eq]
  simp [hpre]

theorem searchNumUnit_single_eq_none {u0 : Char} {u : List Char} {l : List Char}
    (h : u0 ∉ l) : searchNumUnit [u0 :: u] l = none := by
  induction l with
  | nil => rfl
  | cons c rest ih =>
    have hr : u0 ∉ rest := fun hm => h (List.mem_cons_of_mem _ hm)
    simp [searchNumUnit, tryNumUnit_single_eq_none h, ih hr]

theorem takeWhile_append_of_all {p : Char → Bool} {ds r : List Char}
    (h : ∀ c ∈ ds, p c = true) : (ds ++ r).takeWhile p = ds ++ r.takeWhile p := by
  induction ds with
  | nil => rfl
  | cons c rest ih =>
    have hc : p c = true := h c (List.mem_cons_self _ _)
    simp [List.takeWhile_cons, hc, ih (fun x hx => h x (List.mem_cons_of_mem _ hx))]

theorem dropWhile_append_of_all {p : Char → Bool} {ds r : List Char}
    (h : ∀ c ∈ ds, p c = true) : (ds ++ r).dropWhile p = r.dropWhile p := by
  induction ds with
  | nil => rfl
  | cons c rest ih =>
    have hc : p c = true := h c (List.mem_cons_self _ _)
    simp [List.dropWhile_cons, hc, ih (fun x hx => h x (List.mem_cons_of_mem _ hx))]

/-- A digit run followed directly by a unit literal is found by the
number-unit scanner (used for `"N个月前"`-shaped texts). -/
theorem searchNumUnit_digits_unit (u0 : Char) (u ds rest : List Char)
    (hne : ds ≠ []) (hds : ∀ c ∈ ds, c.isDigit = true)
    (hu0d : u0.isDigit = false) (hu0s : isPySpace u0 = false) :
    searchNumUnit [u0 :: u] (ds ++ u0 :: (u ++ rest)) = some (digitsVal ds) := by
  cases ds with
  | nil => exact absurd rfl hne
  | cons d ds' =>
    have hall : ∀ c ∈ d :: ds', Char.isDigit c = true := hds
    have h1 : (u0 :: (u ++ rest)).takeWhile Char.isDigit = [] := by
      simp [List.takeWhile_cons, hu0d]
    have h2 : (u0 :: (u ++ rest)).dropWhile Char.isDigit = u0 :: (u ++ rest) := by
      simp [List.dropWhile_cons, hu0d]
    have h3 : (u0 :: (u ++ rest)).dropWhile isPySpace = u0 :: (u ++ rest) := by
      simp [List.dropWhile_cons, hu0s]
    have htry : tryNumUnit [u0 :: u] ((d :: ds') ++ u0 :: (u ++ rest)) =
        some (digitsVal (d :: ds')) := by
      unfold tryNumUnit unitAtHead
      rw [takeWhile_append_of_all hall, dropWhile_append_of_all hall, h1, h2, h3,
        List.append_nil]
      have hpre : (u0 :: u).isPrefixOf (u0 :: (u ++ rest)) = true := by
        rw [List.isPrefixOf_iff_prefix]
        exact ⟨rest, by simp⟩
      simp [hpre]
    have htry' : tryNumUnit [u0 :: u] (d :: (ds' ++ u0 :: (u ++ rest))) =
        some (digitsVal (d :: ds')) := htry
    show searchNumUnit [u0 :: u] (d :: (ds' ++ u0 :: (u ++ rest))) = _
    unfold searchNumUnit
    rw [htry']

theorem staleAbsCN_of_none {t : List Char} (h : searchAbsCN t = none) (c : Int) :
    staleAbsCN c t = false := by
  simp [staleAbsCN, h]

theorem staleAbsISO_of_none {t : List Char} (h : searchAbsISO t = none) (c : Int) :
    staleAbsISO c t = false := by
  simp [staleAbsISO, h]

theorem digit_ne_of_not_digit {c ch : Char} (hc : c.isDigit = true)
    (hch : ch.isDigit = false) : c ≠ ch := by
  intro he
  rw [he] at hc
  rw [hc] at hch
  exact Bool.noConfusion hch

/-- For an all-digit run followed by a literal tail, a character that is
neither a digit nor in the tail does not occur in the text. -/
theorem not_mem_digits_append {ch : Char} {ds tail : List Char}
    (hds : ∀ c ∈ ds, c.isDigit = true) (hch : ch.isDigit = false)
    (htail : ch ∉ tail) : ch ∉ ds ++ tail := by
  intro hm
  rcases List.mem_append.mp hm with h1 | h2
  · exact digit_ne_of_not_digit (hds ch h1) hch rfl
  · exact htail h2

theorem textStale_eq_false {c : Int} {t : List Char}
    (h1 : searchAbsCN t = none) (h2 : searchAbsISO t = none)
    (h3 : searchNumUnit [['天']] t = none)
    (h4 : searchNumUnit [['个', '月']] t = none) : textStale c t = false := by
  simp [textStale, staleAbsCN, staleAbsISO, staleDays, staleMonths, h1, h2, h3, h4]

theorem textStale_nil (c : Int) : textStale c [] = false := rfl

/-- Claim C3: with `NEWS_MAX_AGE_DAYS = 3`, `_is_news_too_old` keeps an
item dated `"3天前"`, drops `"4天前"`, drops every `"N个月前"` (N ≥ 1),
keeps `"N小时前"` and `"N分钟前"`, and keeps any item in which neither
`publish_time` nor the summary contains a recognizable date expression. -/
theorem staleness_boundary :
    (∀ now : Int, isNewsTooOld now
      { title := "标题样例", url := "u", source := "s", industry := "i",
        publish_time := "3天前" } = false)
    ∧ (∀ now : Int, isNewsTooOld now
      { title := "标题样例", url := "u", source := "s", industry := "i",
        publish_time := "4天前" } = true)
    ∧ (∀ (now : Int) (ds : List Char), ds ≠ [] → (∀ c ∈ ds, c.isDigit = true) →
      isNewsTooOld now
        { title := "标题样例", url := "u", source := "s", industry := "i",
          publish_time := String.mk (ds ++ ['个', '月', '前']) } = true)
    ∧ (∀ (now : Int) (ds : List Char), ds ≠ [] → (∀ c ∈ ds, c.isDigit = true) →
      isNewsTooOld now
        { title := "标题样例", url := "u", source := "s", industry := "i",
          publish_time := String.mk (ds ++ ['小', '时', '前']) } = false)
    ∧ (∀ (now : Int) (ds : List Char), ds ≠ [] → (∀ c ∈ ds, c.isDigit = true) →
      isNewsTooOld now
        { title := "标题样例", url := "u", source := "s", industry := "i",
          publish_time := String.mk (ds ++ ['分', '钟', '前']) } = false)
    ∧ (∀ (now : Int) (item : NewsItem),
      searchAbsCN item.publish_time.data = none →
      searchAbsISO item.publish_time.data = none →
      searchNumUnit [['天']] item.publish_time.data = none →
      searchNumUnit [['个', '月']] item.publish_time.data = none →
      searchAbsCN item.summary.data = none →
      searchAbsISO item.summary.data = none →
      searchNumUnit [['天']] item.summary.data = none →
      searchNumUnit [['个', '月']] item.summary.data = none →
      isNewsTooOld now item = false) := by
  have hnil : ("" : String).data = [] := rfl
  have hcn0 : ∀ c : Int, staleAbsCN c [] = false := staleAbsCN_of_none rfl
  have hiso0 : ∀ c : Int, staleAbsISO c [] = false := staleAbsISO_of_none rfl
  have hd0 : staleDays [] = false := rfl
  have hm0 : staleMonths [] = false := rfl
  refine ⟨?_, ?_, ?_, ?_, ?_, ?_⟩
  · intro now
    have hd : staleDays "3天前".data = false := by decide
    have hm : staleMonths "3天前".data = false := by decide
    simp [isNewsTooOld, textStale, hd, hm, hnil, hcn0, hiso0, hd0, hm0,
      staleAbsCN_of_none (show searchAbsCN "3天前".data = none by decide),
      staleAbsISO_of_none (show searchAbsISO "3天前".data = none by decide)]
  · intro now
    have hd : staleDays "4天前".data = true := by decide
    simp [isNewsTooOld, textStale, hd]
  · intro now ds hne hds
    have h := searchNumUnit_digits_unit '个' ['月'] ds ['前'] hne hds (by decide) (by decide)
    have hmonths : staleMonths (ds ++ ['个', '月', '前']) = true := by
      unfold staleMonths
      have h' : searchNumUnit [['个', '月']] (ds ++ ['个', '月', '前']) =
          some (digitsVal ds) := h
      rw [h']
      rfl
    simp [isNewsTooOld, textStale, hmonths]
  · intro now ds hne hds
    have hpub : (String.mk (ds ++ ['小', '时', '前'])).data = ds ++ ['小', '时', '前'] := rfl
    have ht : ∀ c : Int, textStale c (ds ++ ['小', '时', '前']) = false := fun c =>
      textStale_eq_false
        (searchAbsCN_eq_none (not_mem_digits_append hds (by decide) (by decide)))
        (searchAbsISO_eq_none (not_mem_digits_append hds (by decide) (by decide)))
        (searchNumUnit_single_eq_none (not_mem_digits_append hds (by decide) (by decide)))
        (searchNumUnit_single_eq_none (not_mem_digits_append hds (by decide) (by decide)))
    simp [isNewsTooOld, hpub, ht, hnil, textStale_nil]
  · intro now ds hne hds
    have hpub : (String.mk (ds ++ ['分', '钟', '前'])).data = ds ++ ['分', '钟', '前'] := rfl
    have ht : ∀ c : Int, textStale c (ds ++ ['分', '钟', '前']) = false := fun c =>
      textStale_eq_false
        (searchAbsCN_eq_none (not_mem_digits_append hds (by decide) (by decide)))
        (searchAbsISO_eq_none (not_mem_digits_append hds (by decide) (by decide)))
        (searchNumUnit_single_eq_none (not_mem_digits_append hds (by decide) (by decide)))
        (searchNumUnit_single_eq_none (not_mem_digits_append hds (by decide) (by decide)))
    simp [isNewsTooOld, hpub, ht, hnil, textStale_nil]
  · intro now item h1 h2 h3 h4 h5 h6 h7 h8
    simp [isNewsTooOld, textStale_eq_false h1 h2 h3 h4, textStale_eq_false h5 h6 h7 h8]

/-- Witness for `staleness_boundary` at concrete inputs: `"5个月前"` is
dropped and `"7小时前"` is kept. -/
theorem staleness_boundary_witness :
    isNewsTooOld 0
      { title := "标题样例", url := "u", source := "s", industry := "i",
        publish_time := String.mk (['5'] ++ ['个', '月', '前']) } = true
    ∧ isNewsTooOld 0
      { title := "标题样例", url := "u", source := "s", industry := "i",
        publish_time := String.mk (['7'] ++ ['小', '时', '前']) } = false :=
  ⟨staleness_boundary.2.2.1 0 ['5'] (by decide) (by decide),
   staleness_boundary.2.2.2.1 0 ['7'] (by decide) (by decide)⟩

theorem specVerdict_none_parts {c : Int} {t : List Char} (h : specVerdict c t = none) :
    specVerdictCN c t = none ∧ specVerdictISO c t = none ∧
      specVerdictDays t = none ∧ specVerdictMonths t = none := by
  unfold specVerdict at h
  cases h1 : specVerdictCN c t <;> rw [h1] at h
  · cases h2 : specVerdictISO c t <;> rw [h2] at h
    · cases h3 : specVerdictDays t <;> rw [h3] at h
      · exact ⟨rfl, rfl, rfl, h⟩
      · exact absurd h (by simp)
    · exact absurd h (by simp)
  · exact absurd h (by simp)

theorem staleAbsCN_of_specCN_true {c : Int} {t : List Char}
    (h : specVerdictCN c t = some true) : staleAbsCN c t = true := by
  unfold specVerdictCN at h
  cases hs : searchAbsCN t with
  | none => simp [hs] at h
  | some v =>
    obtain ⟨y, m, d⟩ := v
    simp only [hs] at h
    cases hv : validDate y m d with
    | false => simp [hv] at h
    | true =>
      simp only [hv, if_true] at h
      simp [staleAbsCN, hs, hv, Option.some.inj h]

theorem staleAbsISO_of_specISO_true {c : Int} {t : List Char}
    (h : specVerdictISO c t = some true) : staleAbsISO c t = true := by
  unfold specVerdictISO at h
  cases hs : searchAbsISO t with
  | none => simp [hs] at h
  | some v =>
    obtain ⟨y, m, d⟩ := v
    simp only [hs] at h
    cases hv : validDate y m d with
    | false => simp [hv] at h
    | true =>
      simp only [hv, if_true] at h
      simp [staleAbsISO, hs, hv, Option.some.inj h]

theorem staleDays_of_specDays_true {t : List Char}
    (h : specVerdictDays t = some true) : staleDays t = true := by
  unfold specVerdictDays at h
  cases hs : searchNumUnit [['天']] t with
  | none => simp [hs] at h
  | some n =>
    simp only [hs, Option.map_some] at h
    simp [staleDays, hs, Option.some.inj h]

theorem staleMonths_of_specMonths_true {t : List Char}
    (h : specVerdictMonths t = some true) : staleMonths t = true := by
  unfold specVerdictMonths at h
  by_cases hs : (searchNumUnit [['个', '月']] t).isSome = true
  · simpa [staleMonths] using hs
  · simp [hs] at h

theorem textStale_of_specVerdict_true {c : Int} {t : List Char}
    (h : specVerdict c t = some true) : textStale c t = true := by
  unfold specVerdict at h
  cases h1 : specVerdictCN c t with
  | some b =>
    simp only [h1, Option.some.injEq] at h
    subst h
    simp [textStale, staleAbsCN_of_specCN_true h1]
  | none =>
    simp only [h1] at h
    cases h2 : specVerdictISO c t with
    | some b =>
      simp only [h2, Option.some.injEq] at h
      subst h
      simp [textStale, staleAbsISO_of_specISO_true h2]
    | none =>
      simp only [h2] at h
      cases h3 : specVerdictDays t with
      | some b =>
        simp only [h3, Option.some.injEq] at h
        subst h
        simp [textStale, staleDays_of_specDays_true h3]
      | none =>
        simp only [h3] at h
        simp [textStale, staleMonths_of_specMonths_true h]

theorem textStale_false_of_specVerdict_none {c : Int} {t : List Char}
    (h : specVerdict c t = none) : textStale c t = false := by
  obtain ⟨h1, h2, h3, h4⟩ := specVerdict_none_parts h
  have e1 : staleAbsCN c t = false := by
    unfold specVerdictCN at h1
    cases hs : searchAbsCN t with
    | none => simp [staleAbsCN, hs]
    | some v =>
      obtain ⟨y, m, d⟩ := v
      simp only [hs] at h1
      cases hv : validDate y m d with
      | false => simp [staleAbsCN, hs, hv]
      | true => simp [hv] at h1
  have e2 : staleAbsISO c t = false := by
    unfold specVerdictISO at h2
    cases hs : searchAbsISO t with
    | none => simp [staleAbsISO, hs]
    | some v =>
      obtain ⟨y, m, d⟩ := v
      simp only [hs] at h2
      cases hv : validDate y m d with
      | false => simp [staleAbsISO, hs, hv]
      | true => simp [hv] at h2
  have e3 : staleDays t = false := by
    unfold specVerdictDays at h3
    cases hs : searchNumUnit [['天']] t with
    | none => simp [staleDays, hs]
    | some n => simp [hs] at h3
  have e4 : staleMonths t = false := by
    unfold specVerdictMonths at h4
    by_cases hs : (searchNumUnit [['个', '月']] t).isSome = true
    · simp [hs] at h4
    · simpa [staleMonths] using hs
  simp [textStale, e1, e2, e3, e4]

/-- Claim C2 (amended): the stale-pattern checks run in the fixed order of
the code (absolute before relative, `publish_time` before the summary),
but only a *stale* parse short-circuits: whatever the spec's
first-success-wins policy (`specIsStale`) declares stale is also stale in
the code, and when no pattern parses in either text the item is kept —
yet a fresh absolute date does not protect the item (see the
counterexample). -/
theorem staleness_pattern_order (now : Int) (item : NewsItem) :
    (specIsStale now item = true → isNewsTooOld now item = true)
    ∧ (specVerdict (now - 86400 * (NEWS_MAX_AGE_DAYS : Int)) item.publish_time.data = none →
       specVerdict (now - 86400 * (NEWS_MAX_AGE_DAYS : Int)) item.summary.data = none →
       isNewsTooOld now item = false) := by
  constructor
  · intro h
    have h' : (match specVerdict (now - 86400 * (NEWS_MAX_AGE_DAYS : Int))
        item.publish_time.data with
      | some b => b
      | none => (specVerdict (now - 86400 * (NEWS_MAX_AGE_DAYS : Int))
          item.summary.data).getD false) = true := h
    show (textStale (now - 86400 * (NEWS_MAX_AGE_DAYS : Int)) item.publish_time.data ||
      textStale (now - 86400 * (NEWS_MAX_AGE_DAYS : Int)) item.summary.data) = true
    cases hp : specVerdict (now - 86400 * (NEWS_MAX_AGE_DAYS : Int)) item.publish_time.data with
    | some b =>
      simp only [hp] at h'
      rw [h'] at hp
      simp [textStale_of_specVerdict_true hp]
    | none =>
      simp only [hp] at h'
      cases hs : specVerdict (now - 86400 * (NEWS_MAX_AGE_DAYS : Int)) item.summary.data with
      | some b =>
        simp only [hs, Option.getD_some] at h'
        rw [h'] at hs
        simp [textStale_of_specVerdict_true hs]
      | none => simp [hs] at h'
  · intro hp hs
    show (textStale (now - 86400 * (NEWS_MAX_AGE_DAYS : Int)) item.publish_time.data ||
      textStale (now - 86400 * (NEWS_MAX_AGE_DAYS : Int)) item.summary.data) = false
    simp [textStale_false_of_specVerdict_none hp, textStale_false_of_specVerdict_none hs]

/-- Witness for `staleness_pattern_order`: an item dated `"8个月前"` is
declared stale by the spec policy, hence also by the code. -/
theorem staleness_pattern_order_witness :
    isNewsTooOld 0
      { title := "标题样例", url := "u", source := "s", industry := "i",
        publish_time := "8个月前" } = true :=
  (staleness_pattern_order 0
    { title := "标题样例", url := "u", source := "s", industry := "i",
      publish_time := "8个月前" }).1 (by decide)

/-- Claim C2 counterexample: `freshDateStaleSummaryItem` carries the
absolute date of the current day (2026-10-12) in `publish_time` — within
`max_age_days` of `now`, as the first three conjuncts certify — yet
`_is_news_too_old` still reports it stale because of the `"2个月前"` in
the summary; a first-success-wins policy (`specIsStale`) would keep it. -/
theorem staleness_short_circuit_counterexample :
    searchAbsISO freshDateStaleSummaryItem.publish_time.data = some (2026, 10, 12)
    ∧ validDate 2026 10 12 = true
    ∧ ¬(dateSec 2026 10 12 < sampleNow - 86400 * (NEWS_MAX_AGE_DAYS : Int))
    ∧ isNewsTooOld sampleNow freshDateStaleSummaryItem = true
    ∧ specIsStale sampleNow freshDateStaleSummaryItem = false := by
  decide

theorem uid_congr {i1 i2 : NewsItem} (h : i1.title = i2.title) : i1.uid = i2.uid := by
  unfold NewsItem.uid
  rw [h]

/-- Claim C4: `_deduplicate` keeps an item exactly when its fingerprint is
unrecorded and the item is not stale; fingerprints are recorded only for
kept items (first conjunct: the outgoing seen-set is the incoming one
plus exactly the kept uids; second: every kept item is fresh and was
unseen); hence a fresh duplicate title is kept once and rejected the
second time (third conjunct), while a stale instance does not use up the
fingerprint, so a later fresh instance of the same title is still kept
(fourth conjunct). -/
theorem deduplicate_fingerprint_policy :
    (∀ (now : Int) (seen : List String) (items : List NewsItem),
      (deduplicate now seen items).2 =
        seen ++ ((deduplicate now seen items).1).map NewsItem.uid)
    ∧ (∀ (now : Int) (seen : List String) (items : List NewsItem) (it : NewsItem),
      it ∈ (deduplicate now seen items).1 →
        isNewsTooOld now it = false ∧ it.uid ∉ seen)
    ∧ (∀ (now : Int) (seen : List String) (i1 i2 : NewsItem),
      i1.title = i2.title → i1.uid ∉ seen →
      isNewsTooOld now i1 = false → isNewsTooOld now i2 = false →
      deduplicate now seen [i1, i2] = ([i1], seen ++ [i1.uid]))
    ∧ (∀ (now : Int) (seen : List String) (i1 i2 : NewsItem),
      i1.title = i2.title → i1.uid ∉ seen →
      isNewsTooOld now i1 = true → isNewsTooOld now i2 = false →
      deduplicate now seen [i1, i2] = ([i2], seen ++ [i2.uid])) := by
  refine ⟨?_, ?_, ?_, ?_⟩
  · intro now seen items
    induction items generalizing seen with
    | nil => simp [deduplicate]
    | cons it rest ih =>
      by_cases h1 : it.uid ∈ seen
      · simpa [deduplicate, h1] using ih seen
      · by_cases h2 : isNewsTooOld now it = true
        · simpa [deduplicate, h1, h2] using ih seen
        · rcases hd : deduplicate now (seen ++ [it.uid]) rest with ⟨kept, seenOut⟩
          have ih' := ih (seen ++ [it.uid])
          rw [hd] at ih'
          simp at ih'
          simp only [deduplicate, if_neg h1, if_neg h2, hd]
          simp [ih']
  · intro now seen items
    induction items generalizing seen with
    | nil => simp [deduplicate]
    | cons it rest ih =>
      intro x hx
      by_cases h1 : it.uid ∈ seen
      · simp only [deduplicate, if_pos h1] at hx
        exact ih seen x hx
      · by_cases h2 : isNewsTooOld now it = true
        · simp only [deduplicate, if_neg h1, if_pos h2] at hx
          exact ih seen x hx
        · rcases hd : deduplicate now (seen ++ [it.uid]) rest with ⟨kept, seenOut⟩
          simp only [deduplicate, if_neg h1, if_neg h2, hd] at hx
          simp only [Bool.not_eq_true] at h2
          rcases List.mem_cons.mp hx with rfl | hmem
          · exact ⟨h2, h1⟩
          · have := ih (seen ++ [it.uid]) x (by rw [hd]; exact hmem)
            refine ⟨this.1, fun hm => this.2 (List.mem_append_left _ hm)⟩
  · intro now seen i1 i2 ht h1 hf1 hf2
    have hu : i2.uid = i1.uid := uid_congr ht.symm
    have hmem : i2.uid ∈ seen ++ [i1.uid] := by
      rw [hu]
      exact List.mem_append_right _ (List.mem_singleton_self _)
    simp [deduplicate, h1, hf1, hmem]
  · intro now seen i1 i2 ht h1 hs1 hf2
    have hu : i2.uid = i1.uid := uid_congr ht.symm
    have h2 : i2.uid ∉ seen := by
      rw [hu]
      exact h1
    simp [deduplicate, h1, hs1, h2, hf2]

/-- Witness for `deduplicate_fingerprint_policy`: a stale item followed by
a fresh item with the same title — the stale one is dropped without
recording the fingerprint and the fresh one is kept. -/
theorem deduplicate_fingerprint_policy_witness :
    deduplicate 0 [] [staleQuantumItem, freshQuantumItem] =
      ([freshQuantumItem], [freshQuantumItem.uid]) :=
  deduplicate_fingerprint_policy.2.2.2 0 [] staleQuantumItem freshQuantumItem
    rfl (by simp) (by decide) (by decide)

theorem containsSub_iff {n h : List Char} : containsSub n h = true ↔ n <:+: h := by
  induction h with
  | nil =>
    constructor
    · intro hc
      have : n = [] := by
        simpa [containsSub, List.isEmpty_iff] using hc
      simp [this]
    · intro hi
      have : n = [] := List.eq_nil_of_sublist_nil hi.sublist
      simp [containsSub, this]
  | cons c rest ih =>
    simp [containsSub, List.infix_cons_iff, List.isPrefixOf_iff_prefix, ih]

/-- Claim C5: classification is first-match-wins over the taxonomy in
declaration order with substring keyword matching — so a "foo"-before-
"foobar" taxonomy classifies any text containing "foobar" as the first
label; the loop equals a `find?` over entries in order; the funding
classifier consults the extended table only when the primary table
missed; and a `None` classification makes the caller drop the item. -/
theorem classifier_first_match :
    (∀ (rest : List (String × List String)) (text : String),
      "foobar".data <:+: text.data →
      matchTaxonomy (("A", ["foo"]) :: ("B", ["foobar"]) :: rest) text = some "A")
    ∧ (∀ (tax : List (String × List String)) (text : String),
      matchTaxonomy tax text =
        (tax.find? (fun e => keywordHit e.2 text)).map (fun e => e.1))
    ∧ (∀ (text l : String),
      matchTaxonomy INDUSTRIES text = some l → fundingMatchIndustry text = some l)
    ∧ (∀ text : String,
      matchTaxonomy INDUSTRIES text = none →
      fundingMatchIndustry text = matchTaxonomy extendedMapping text)
    ∧ (∀ (e : FundingEvent) (events : List FundingEvent),
      fundingMatchIndustry (e.title ++ e.summary ++ e.company) = none →
      matchEvents (e :: events) = matchEvents events)
    ∧ (∀ (src : String) (e : RssEntry),
      newsMatchIndustry (e.title ++ String.mk ((stripTags e.summary.data).take 200)) = none →
      rssEntryToItem src e = none) := by
  refine ⟨?_, ?_, ?_, ?_, ?_, ?_⟩
  · intro rest text h
    have hpre : "foo".data <+: "foobar".data := by decide
    have hfoo : "foo".data <:+: text.data := hpre.isInfix.trans h
    have hhit : keywordHit ["foo"] text = true := by
      simp [keywordHit, containsSub_iff, hfoo]
    simp [matchTaxonomy, hhit]
  · intro tax text
    induction tax with
    | nil => rfl
    | cons head tail ih =>
      obtain ⟨label, kws⟩ := head
      by_cases hh : keywordHit kws text
      · simp [matchTaxonomy, hh, List.find?]
      · simp [matchTaxonomy, hh, List.find?, ih]
  · intro text l h
    unfold fundingMatchIndustry
    rw [h]
  · intro text h
    unfold fundingMatchIndustry
    rw [h]
  · intro e events h
    simp [matchEvents, List.filterMap_cons, h]
  · intro src e h
    by_cases h1 : e.title = "" ∨ e.link = ""
    · simp [rssEntryToItem, h1]
    · simp [rssEntryToItem, h1, h]

/-- Witness for `classifier_first_match`: a text containing "foobar" is
classified as the earlier label "A". -/
theorem classifier_first_match_witness :
    matchTaxonomy [("A", ["foo"]), ("B", ["foobar"])] "xxfoobaryy" = some "A" :=
  classifier_first_match.1 [] "xxfoobaryy" (by decide)

/-- Claim C6 (amended): the Baidu, Sogou and RSS parsers cap every
emitted summary at 200 characters; the Bing parser does not truncate
(see `bing_no_truncation_counterexample`). -/
theorem summary_truncation :
    (∀ (ind : String) (f : BaiduFragment) (item : NewsItem),
      baiduParseFragment ind f = some item → item.summary.length ≤ 200)
    ∧ (∀ (ind : String) (f : SogouFragment) (item : NewsItem),
      sogouParseFragment ind f = some item → item.summary.length ≤ 200)
    ∧ (∀ (src : String) (e : RssEntry) (item : NewsItem),
      rssEntryToItem src e = some item → item.summary.length ≤ 200) := by
  refine ⟨?_, ?_, ?_⟩
  · intro ind f item h
    obtain ⟨tt, hrf, co⟩ := f
    unfold baiduParseFragment at h
    split at h
    · exact absurd h (by simp)
    · have he := Option.some.inj h
      rw [← he]
      cases co with
      | none =>
        show ("" : String).length ≤ 200
        decide
      | some c =>
        obtain ⟨ct, st, ft⟩ := c
        cases ct with
        | none =>
          show ("" : String).length ≤ 200
          decide
        | some s =>
          show ((stripTags s.data).take 200).length ≤ 200
          simp [List.length_take]
  · intro ind f item h
    unfold sogouParseFragment at h
    cases htt : f.titleTag with
    | none => rw [htt] at h; exact absurd h (by simp)
    | some tt =>
      obtain ⟨rawTitle, href⟩ := tt
      rw [htt] at h
      simp only at h
      split at h
      · exact absurd h (by simp)
      · have he := Option.some.inj h
        rw [← he]
        show ((stripTags (f.summaryText.getD "").data).take 200).length ≤ 200
        simp [List.length_take]
  · intro src e item h
    unfold rssEntryToItem at h
    split at h
    · exact absurd h (by simp)
    · split at h
      · have he := Option.some.inj h
        rw [← he]
        show ((stripTags e.summary.data).take 200).length ≤ 200
        simp [List.length_take]
      · exact absurd h (by simp)

/-- Witness for `summary_truncation`: the sample Baidu fragment parses to
an item whose summary is within the cap. -/
theorem summary_truncation_witness : sampleBaiduItem.summary.length ≤ 200 :=
  summary_truncation.1 "AI行业" sampleBaiduFragment sampleBaiduItem (by decide)

/-- Claim C6 counterexample: the Bing parser emits a 201-character summary
unchanged — `_fetch_from_bing_news` has no `[:200]` truncation. -/
theorem bing_no_truncation_counterexample :
    ((bingParseFragment "行业" longSnippetBingFragment).map
      (fun it => it.summary.length)).getD 0 = 201 := by
  decide

/-- Claim C7 (amended): the Baidu and Sogou parsers discard titles shorter
than 4 characters, so their emitted items have titles of length ≥ 4; the
Bing and RSS parsers only require a non-empty title (see
`bing_short_title_counterexample`). -/
theorem title_min_length :
    (∀ (ind : String) (f : BaiduFragment) (item : NewsItem),
      baiduParseFragment ind f = some item → 4 ≤ item.title.length)
    ∧ (∀ (ind : String) (f : SogouFragment) (item : NewsItem),
      sogouParseFragment ind f = some item → 4 ≤ item.title.length)
    ∧ (∀ (ind : String) (f : BingFragment) (item : NewsItem),
      bingParseFragment ind f = some item → item.title ≠ "")
    ∧ (∀ (src : String) (e : RssEntry) (item : NewsItem),
      rssEntryToItem src e = some item → item.title ≠ "") := by
  refine ⟨?_, ?_, ?_, ?_⟩
  · intro ind f item h
    unfold baiduParseFragment at h
    split at h
    · exact absurd h (by simp)
    · next hcond =>
      have he := Option.some.inj h
      rw [← he]
      simp only [not_or] at hcond
      simpa using Nat.le_of_not_lt hcond.2.1
  · intro ind f item h
    unfold sogouParseFragment at h
    cases htt : f.titleTag with
    | none => rw [htt] at h; exact absurd h (by simp)
    | some tt =>
      obtain ⟨rawTitle, href⟩ := tt
      rw [htt] at h
      simp only at h
      split at h
      · exact absurd h (by simp)
      · next hcond =>
        have he := Option.some.inj h
        rw [← he]
        simp only [not_or] at hcond
        simpa using Nat.le_of_not_lt hcond.2.1
  · intro ind f item h
    unfold bingParseFragment at h
    cases htt : f.titleTag with
    | none => rw [htt] at h; exact absurd h (by simp)
    | some tt =>
      obtain ⟨title, href⟩ := tt
      rw [htt] at h
      simp only at h
      split at h
      · exact absurd h (by simp)
      · next hcond =>
        have he := Option.some.inj h
        rw [← he]
        simp only [not_or] at hcond
        simpa using hcond.1
  · intro src e item h
    unfold rssEntryToItem at h
    split at h
    · exact absurd h (by simp)
    · next hcond =>
      simp only [not_or] at hcond
      split at h
      · have he := Option.some.inj h
        rw [← he]
        simpa using hcond.1
      · exact absurd h (by simp)

/-- Witness for `title_min_length`: the sample Baidu item's title passes
the minimum length. -/
theorem title_min_length_witness : 4 ≤ sampleBaiduItem.title.length :=
  title_min_length.1 "AI行业" sampleBaiduFragment sampleBaiduItem (by decide)

/-- Claim C7 counterexample: the Bing parser emits an item for a 2-character
title ("AI") — `_fetch_from_bing_news` has no minimum-length check. -/
theorem bing_short_title_counterexample :
    ((bingParseFragment "行业" shortTitleBingFragment).map
      (fun it => it.title.length)).getD 0 = 2 := by
  decide

theorem tryAbsISO_of_parseYM {l : List Char} {y m : Nat}
    (h : parseYMExact l = some (y, m)) : tryAbsISO l = none :=
  match l, h with
  | [], h => by simp [parseYMExact] at h
  | [_], h => by simp [parseYMExact] at h
  | [_, _], h => by simp [parseYMExact] at h
  | [_, _, _], h => by simp [parseYMExact] at h
  | [_, _, _, _], h => by simp [parseYMExact] at h
  | [_, _, _, _, _], h => by simp [parseYMExact] at h
  | [_, _, _, _, _, _], h => by simp [parseYMExact] at h
  | _ :: _ :: _ :: _ :: _ :: _ :: _ :: _ :: _, h => by simp [parseYMExact] at h
  | [a, b, c, d, e, f, g], h => by
    simp only [parseYMExact] at h
    split at h
    · next hcond =>
      simp only [Bool.and_eq_true, decide_eq_true_eq] at hcond
      obtain ⟨⟨⟨⟨⟨⟨ha, hb⟩, hc⟩, hd⟩, he⟩, hf⟩, hg⟩ := hcond
      subst he
      unfold tryAbsISO
      simp [take4Digits, take2Digits, eatLit, ha, hb, hc, hd, hf, hg]
    · exact absurd h (by simp)

/-- Claim C8 (amended): for a partial `YYYY-MM` publish time,
`_is_too_old` reports fresh exactly when the month is the current month
*or any later month of the current year* (`month >= now.month - 1`), or
the December-of-previous-year wrap when it is January; every other
year-month — earlier months, and any other year including future years —
is stale. -/
theorem funding_partial_month_freshness (now : PyDateTime) (pt : String) (y m : Nat)
    (h : parseYMExact pt.data = some (y, m)) :
    fundingIsTooOld now pt = false ↔
      ((y = now.year ∧ now.month ≤ m + 1) ∨
        (y + 1 = now.year ∧ now.month = 1 ∧ m = 12)) := by
  have hiso : tryAbsISO pt.data = none := tryAbsISO_of_parseYM h
  have hb : fundingIsTooOld now pt = fundingYMBranch now pt := by
    simp only [fundingIsTooOld, hiso]
  rw [hb]
  by_cases h1 : y = now.year ∧ now.month ≤ m + 1
  · have hv : fundingYMBranch now pt = false := by
      simp [fundingYMBranch, h, h1.1, h1.2]
    rw [hv]
    exact iff_of_true rfl (Or.inl h1)
  · by_cases h2 : y + 1 = now.year ∧ now.month = 1 ∧ m = 12
    · have hv : fundingYMBranch now pt = false := by
        simp [fundingYMBranch, h, h2.1, h2.2.1, h2.2.2]
      rw [hv]
      exact iff_of_true rfl (Or.inr h2)
    · have hv : fundingYMBranch now pt = true := by
        rw [fundingYMBranch.eq_def, h]
        simp only [Bool.and_eq_true, decide_eq_true_eq]
        rw [if_neg ?hc1]
        case hc1 => simpa using h1
        rw [if_neg ?hc2]
        case hc2 => simpa [and_assoc] using h2
      rw [hv]
      refine iff_of_false (by simp) ?_
      rintro (hc | hc)
      · exact h1 hc
      · exact h2 hc

/-- Witness for `funding_partial_month_freshness`: in January 2026,
December 2025 is fresh (the year-wrap case). -/
theorem funding_partial_month_freshness_witness :
    fundingIsTooOld ⟨2026, 1, 15, 3600⟩ "2025-12" = false :=
  (funding_partial_month_freshness ⟨2026, 1, 15, 3600⟩ "2025-12" 2025 12
    (by decide)).mpr (Or.inr (by decide))

/-- Claim C8 counterexample: with `now` = 2026-10-05, the publish time
`"2026-12"` names a month that is neither the current month (10) nor the
immediately preceding one (9), yet `_is_too_old` reports it fresh
(`month >= now.month - 1` admits every later month of the same year). -/
theorem funding_future_month_counterexample :
    fundingIsTooOld ⟨2026, 10, 5, 0⟩ "2026-12" = false
    ∧ ¬((12 : Nat) = 10 ∨ (12 : Nat) = 10 - 1) := by
  decide

theorem foldl_id {α β : Type _} :
    ∀ (l : List α) (acc : β) (f : β → α → β), (∀ b a, f b a = b) →
      l.foldl f acc = acc
  | [], _, _, _ => rfl
  | x :: xs, acc, f, hf => by
    rw [List.foldl_cons, hf]
    exact foldl_id xs acc f hf

/-- Claim C9: a provider whose fetch raises is equivalent to a provider
returning zero items — for the Sogou, Baidu and Bing slots of
`_fetch_industry_news` and for any single RSS feed of `fetch_from_rss`
the result built from the other providers is unchanged, and no
exception escapes (the functions are total and a total failure of all
three search providers returns the empty item list with the dedup state
untouched). -/
theorem provider_failure_isolation :
    (∀ (now : Int) (seen : List String) (ind : String) (ks : List String)
      (bF gF : String → String → Except String (List NewsItem)) (e : String),
      fetchIndustryNews now seen ind ks (fun _ _ => Except.error e) bF gF =
        fetchIndustryNews now seen ind ks (fun _ _ => Except.ok []) bF gF)
    ∧ (∀ (now : Int) (seen : List String) (ind : String) (ks : List String)
      (sF gF : String → String → Except String (List NewsItem)) (e : String),
      fetchIndustryNews now seen ind ks sF (fun _ _ => Except.error e) gF =
        fetchIndustryNews now seen ind ks sF (fun _ _ => Except.ok []) gF)
    ∧ (∀ (now : Int) (seen : List String) (ind : String) (ks : List String)
      (sF bF : String → String → Except String (List NewsItem)) (e : String),
      fetchIndustryNews now seen ind ks sF bF (fun _ _ => Except.error e) =
        fetchIndustryNews now seen ind ks sF bF (fun _ _ => Except.ok []))
    ∧ (∀ (now : Int) (seen : List String)
      (pre post : List (String × Except String (List RssEntry))) (name e : String),
      fetchFromRss now seen (pre ++ (name, Except.error e) :: post) =
        fetchFromRss now seen (pre ++ (name, Except.ok []) :: post))
    ∧ (∀ (now : Int) (seen : List String) (ind : String) (ks : List String)
      (e1 e2 e3 : String),
      fetchIndustryNews now seen ind ks (fun _ _ => Except.error e1)
        (fun _ _ => Except.error e2) (fun _ _ => Except.error e3) = ([], seen)) := by
  refine ⟨?_, ?_, ?_, ?_, ?_⟩
  · intro now seen ind ks bF gF e
    cases ks with
    | nil => rfl
    | cons k kt => rfl
  · intro now seen ind ks sF gF e
    unfold fetchIndustryNews
    rw [foldl_id _ _ _ (fun b a => rfl), foldl_id _ _ _ (fun b a => by simp)]
  · intro now seen ind ks sF bF e
    cases ks with
    | nil => rfl
    | cons k kt => rfl
  · intro now seen pre post name e
    unfold fetchFromRss
    rw [List.foldl_append, List.foldl_append]
    simp
  · intro now seen ind ks e1 e2 e3
    unfold fetchIndustryNews
    rw [foldl_id _ _ _ (fun b a => rfl)]
    cases ks with
    | nil => rfl
    | cons k kt => rfl

theorem fetchAllGo_of_ge {fetch : String → List String → List NewsItem}
    {maxPer maxTotal : Nat} {l : List (String × List String)} {total : Nat}
    (h : maxTotal ≤ total) : fetchAllGo fetch maxPer maxTotal l total = [] := by
  cases l with
  | nil => rfl
  | cons p rest =>
    obtain ⟨ind, kws⟩ := p
    simp [fetchAllGo, h]

theorem totalLen_nil : totalLen [] = 0 := rfl

theorem totalLen_cons {p : String × List NewsItem} {rest : List (String × List NewsItem)} :
    totalLen (p :: rest) = p.2.length + totalLen rest := by
  simp [totalLen]

theorem fetchAllGo_append (fetch : String → List String → List NewsItem)
    (maxPer maxTotal : Nat) :
    ∀ (pre post : List (String × List String)) (total : Nat),
      fetchAllGo fetch maxPer maxTotal (pre ++ post) total =
        fetchAllGo fetch maxPer maxTotal pre total ++
          fetchAllGo fetch maxPer maxTotal post
            (total + totalLen (fetchAllGo fetch maxPer maxTotal pre total)) := by
  intro pre
  induction pre with
  | nil =>
    intro post total
    simp [fetchAllGo, totalLen_nil]
  | cons p rest ih =>
    intro post total
    obtain ⟨ind, kws⟩ := p
    by_cases hge : maxTotal ≤ total
    · rw [List.cons_append]
      rw [show fetchAllGo fetch maxPer maxTotal ((ind, kws) :: (rest ++ post)) total = []
          from fetchAllGo_of_ge hge,
        show fetchAllGo fetch maxPer maxTotal ((ind, kws) :: rest) total = []
          from fetchAllGo_of_ge hge]
      rw [totalLen_nil, Nat.add_zero, List.nil_append]
      exact (fetchAllGo_of_ge hge).symm
    · have hlt : ¬ total ≥ maxTotal := hge
      by_cases hemp : (fetch ind kws).isEmpty
      · rw [List.cons_append]
        simp only [fetchAllGo, if_neg hlt, hemp, if_pos]
        exact ih post total
      · rw [List.cons_append]
        simp only [fetchAllGo, if_neg hlt, hemp, if_neg, Bool.false_eq_true,
          not_false_eq_true]
        rw [ih post (total + ((fetch ind kws).take maxPer).length)]
        rw [totalLen_cons]
        simp [Nat.add_assoc, Nat.add_comm, Nat.add_left_comm]

theorem fetchAllGo_totalLen_bound (fetch : String → List String → List NewsItem)
    (maxPer maxTotal : Nat) :
    ∀ (l : List (String × List String)) (total : Nat), total < maxTotal →
      total + totalLen (fetchAllGo fetch maxPer maxTotal l total) ≤
        maxTotal - 1 + maxPer := by
  intro l
  induction l with
  | nil =>
    intro total hlt
    simp only [fetchAllGo, totalLen_nil]
    omega
  | cons p rest ih =>
    intro total hlt
    obtain ⟨ind, kws⟩ := p
    have hnge : ¬ total ≥ maxTotal := by omega
    by_cases hemp : (fetch ind kws).isEmpty
    · simp only [fetchAllGo, if_neg hnge, hemp, if_pos]
      exact ih total hlt
    · simp only [fetchAllGo, if_neg hnge, hemp, Bool.false_eq_true, not_false_eq_true,
        if_neg, totalLen_cons]
      have ht : ((fetch ind kws).take maxPer).length ≤ maxPer := by
        simpa using List.length_take_le maxPer (fetch ind kws)
      by_cases h2 : total + ((fetch ind kws).take maxPer).length < maxTotal
      · have := ih (total + ((fetch ind kws).take maxPer).length) h2
        omega
      · rw [fetchAllGo_of_ge (by omega)]
        rw [totalLen_nil]
        omega

theorem fetchAllGo_totalLen_entries (fetch : String → List String → List NewsItem)
    (maxPer maxTotal : Nat) :
    ∀ (l : List (String × List String)) (total : Nat),
      totalLen (fetchAllGo fetch maxPer maxTotal l total) ≤ l.length * maxPer := by
  intro l
  induction l with
  | nil => intro total; simp [fetchAllGo, totalLen_nil]
  | cons p rest ih =>
    intro total
    obtain ⟨ind, kws⟩ := p
    by_cases hge : total ≥ maxTotal
    · rw [fetchAllGo_of_ge hge, totalLen_nil]
      exact Nat.zero_le _
    · by_cases hemp : (fetch ind kws).isEmpty
      · simp only [fetchAllGo, if_neg hge, hemp, if_pos, List.length_cons]
        calc totalLen (fetchAllGo fetch maxPer maxTotal rest total) ≤
            rest.length * maxPer := ih total
          _ ≤ (rest.length + 1) * maxPer := by
            exact Nat.mul_le_mul_right _ (Nat.le_succ _)
      · simp only [fetchAllGo, if_neg hge, hemp, Bool.false_eq_true, not_false_eq_true,
          if_neg, totalLen_cons, List.length_cons]
        have ht : ((fetch ind kws).take maxPer).length ≤ maxPer := by
          simpa using List.length_take_le maxPer (fetch ind kws)
        have := ih (total + ((fetch ind kws).take maxPer).length)
        calc ((fetch ind kws).take maxPer).length +
            totalLen (fetchAllGo fetch maxPer maxTotal rest
              (total + ((fetch ind kws).take maxPer).length)) ≤
            maxPer + rest.length * maxPer := Nat.add_le_add ht this
          _ = (rest.length + 1) * maxPer := by ring

/-- Claim C1 (amended): once the running total has reached `MAX_TOTAL`
*before* a label is processed, no further labels are fetched (appending
more labels changes nothing); but the label at which the cap is crossed
is not truncated to the cap — it contributes up to
`MAX_NEWS_PER_INDUSTRY` items, so the returned total is only bounded by
`MAX_TOTAL - 1 + MAX_NEWS_PER_INDUSTRY`; with the default configuration
(10 industries × 5 per industry = 50 = `MAX_TOTAL_NEWS`) the total never
exceeds 50. -/
theorem global_cap_short_circuit :
    (∀ (fetch : String → List String → List NewsItem) (maxPer maxTotal : Nat)
      (pre post : List (String × List String)),
      maxTotal ≤ totalLen (fetchAll fetch pre maxPer maxTotal) →
      fetchAll fetch (pre ++ post) maxPer maxTotal = fetchAll fetch pre maxPer maxTotal)
    ∧ (∀ (fetch : String → List String → List NewsItem) (maxPer maxTotal : Nat)
      (industries : List (String × List String)),
      totalLen (fetchAll fetch industries maxPer maxTotal) ≤ maxTotal - 1 + maxPer)
    ∧ (∀ fetch : String → List String → List NewsItem,
      totalLen (fetchAll fetch INDUSTRIES 5 50) ≤ 50) := by
  refine ⟨?_, ?_, ?_⟩
  · intro fetch maxPer maxTotal pre post h
    unfold fetchAll at h ⊢
    rw [fetchAllGo_append]
    have h2 : maxTotal ≤ 0 + totalLen (fetchAllGo fetch maxPer maxTotal pre 0) := by
      simpa using h
    rw [fetchAllGo_of_ge h2]
    simp
  · intro fetch maxPer maxTotal industries
    unfold fetchAll
    by_cases h0 : 0 < maxTotal
    · have := fetchAllGo_totalLen_bound fetch maxPer maxTotal industries 0 h0
      omega
    · rw [fetchAllGo_of_ge (by omega)]
      simp [totalLen_nil]
  · intro fetch
    have := fetchAllGo_totalLen_entries fetch 5 50 INDUSTRIES 0
    simpa using this

/-- Witness for `global_cap_short_circuit`: with `MAX_TOTAL = 10` and three
labels of six items each, a fourth label is never fetched. -/
theorem global_cap_short_circuit_witness :
    fetchAll sixItemFetch (threeLabels ++ [("D", [])]) 6 10 =
      fetchAll sixItemFetch threeLabels 6 10 :=
  global_cap_short_circuit.1 sixItemFetch 6 10 threeLabels [("D", [])] (by decide)

/-- Claim C1 counterexample: the spec scenario (`MAX_TOTAL = 10`, labels
A, B, C each yielding six acceptable items, per-label cap ≥ 6).  The
returned mapping holds 12 items, not 10: B is not truncated to 4 (it
keeps its 6 items); only the part "C is never fetched" holds. -/
theorem global_cap_counterexample :
    totalLen (fetchAll sixItemFetch threeLabels 6 10) = 12
    ∧ (lookupKey (fetchAll sixItemFetch threeLabels 6 10) "B").map List.length = some 6
    ∧ lookupKey (fetchAll sixItemFetch threeLabels 6 10) "C" = none := by
  decide

theorem fetchAllGo_values_nonempty (fetch : String → List String → List NewsItem)
    (maxPer maxTotal : Nat) (hp : 1 ≤ maxPer) :
    ∀ (l : List (String × List String)) (total : Nat) (k : String) (v : List NewsItem),
      (k, v) ∈ fetchAllGo fetch maxPer maxTotal l total → v ≠ [] := by
  intro l
  induction l with
  | nil =>
    intro total k v hm
    simp [fetchAllGo] at hm
  | cons p rest ih =>
    intro total k v hm
    obtain ⟨ind, kws⟩ := p
    by_cases hge : total ≥ maxTotal
    · rw [fetchAllGo_of_ge hge] at hm
      simp at hm
    · by_cases hemp : (fetch ind kws).isEmpty
      · simp only [fetchAllGo, if_neg hge, hemp, if_pos] at hm
        exact ih total k v hm
      · simp only [fetchAllGo, if_neg hge, hemp, Bool.false_eq_true, not_false_eq_true,
          if_neg] at hm
        rcases List.mem_cons.mp hm with heq | hmem
        · have hv : v = (fetch ind kws).take maxPer := congrArg Prod.snd heq
          rw [hv]
          intro hnil
          have hfe : fetch ind kws = [] ∨ maxPer = 0 := by
            rcases List.take_eq_nil_iff.mp hnil with h1 | h2
            · exact Or.inr h1
            · exact Or.inl h2
          rcases hfe with h1 | h2
          · rw [h1] at hemp
            exact hemp rfl
          · omega
        · exact ih _ k v hmem

theorem mergeRssItem_preserve {maxPer : Nat} {m : List (String × List NewsItem)}
    {it : NewsItem} (h : ∀ k v, (k, v) ∈ m → v ≠ []) :
    ∀ k v, (k, v) ∈ mergeRssItem maxPer m it → v ≠ [] := by
  intro k v hm
  unfold mergeRssItem at hm
  cases hl : lookupKey m it.industry with
  | some l0 =>
    rw [hl] at hm
    have hm2 : (k, v) ∈ (if l0.length < maxPer then updateAppend m it.industry it
        else m) := hm
    by_cases hlen : l0.length < maxPer
    · rw [if_pos hlen] at hm2
      unfold updateAppend at hm2
      rcases List.mem_map.mp hm2 with ⟨p, hp, heq⟩
      by_cases hpk : p.1 = it.industry
      · rw [if_pos hpk] at heq
        have hv : v = p.2 ++ [it] := (congrArg Prod.snd heq).symm
        rw [hv]
        simp
      · rw [if_neg hpk] at heq
        exact h k v (heq ▸ hp)
    · rw [if_neg hlen] at hm2
      exact h k v hm2
  | none =>
    rw [hl] at hm
    have hm2 : (k, v) ∈ m ++ [(it.industry, [it])] := hm
    rcases List.mem_append.mp hm2 with h1 | h2
    · exact h k v h1
    · have hkv : (k, v) = (it.industry, [it]) := by simpa using h2
      have hv : v = [it] := congrArg Prod.snd hkv
      rw [hv]
      simp

theorem foldl_merge_preserve {maxPer : Nat} :
    ∀ (items : List NewsItem) (m : List (String × List NewsItem)),
      (∀ k v, (k, v) ∈ m → v ≠ []) →
      ∀ k v, (k, v) ∈ items.foldl (mergeRssItem maxPer) m → v ≠ []
  | [], _, h, k, v, hm => h k v hm
  | it :: rest, m, h, k, v, hm =>
    foldl_merge_preserve rest (mergeRssItem maxPer m it)
      (mergeRssItem_preserve h) k v hm

theorem fetchAllGo_empty_fetch (maxPer maxTotal : Nat) :
    ∀ (l : List (String × List String)) (total : Nat),
      fetchAllGo (fun _ _ => []) maxPer maxTotal l total = [] := by
  intro l
  induction l with
  | nil => intro total; rfl
  | cons p rest ih =>
    intro total
    obtain ⟨ind, kws⟩ := p
    by_cases hge : total ≥ maxTotal
    · exact fetchAllGo_of_ge hge
    · simp only [fetchAllGo, if_neg hge, List.isEmpty_nil, if_pos]
      exact ih total

/-- Claim C10: neither `fetch_all` nor `fetch_news` ever binds an industry
key to an empty list — a key appears only with at least one item — and a
run in which every provider fails (and RSS fails or returns nothing)
yields the empty mapping. -/
theorem nonempty_industry_values :
    (∀ (fetch : String → List String → List NewsItem)
      (industries : List (String × List String)) (maxPer maxTotal : Nat)
      (k : String) (l : List NewsItem),
      1 ≤ maxPer → (k, l) ∈ fetchAll fetch industries maxPer maxTotal → l ≠ [])
    ∧ (∀ (fetch : String → List String → List NewsItem)
      (rss : Except String (List NewsItem))
      (industries : List (String × List String)) (maxPer maxTotal : Nat)
      (k : String) (l : List NewsItem),
      1 ≤ maxPer → (k, l) ∈ fetchNews fetch rss industries maxPer maxTotal → l ≠ [])
    ∧ (∀ (industries : List (String × List String)) (maxPer maxTotal : Nat) (e : String),
      fetchAll (fun _ _ => []) industries maxPer maxTotal = []
      ∧ fetchNews (fun _ _ => []) (Except.error e) industries maxPer maxTotal = []
      ∧ fetchNews (fun _ _ => []) (Except.ok []) industries maxPer maxTotal = []) := by
  refine ⟨?_, ?_, ?_⟩
  · intro fetch industries maxPer maxTotal k l hp hm
    exact fetchAllGo_values_nonempty fetch maxPer maxTotal hp industries 0 k l hm
  · intro fetch rss industries maxPer maxTotal k l hp hm
    unfold fetchNews at hm
    cases rss with
    | error e =>
      exact fetchAllGo_values_nonempty fetch maxPer maxTotal hp industries 0 k l hm
    | ok rssItems =>
      exact foldl_merge_preserve rssItems _
        (fun k2 v2 hm2 => fetchAllGo_values_nonempty fetch maxPer maxTotal hp
          industries 0 k2 v2 hm2) k l hm
  · intro industries maxPer maxTotal e
    refine ⟨?_, ?_, ?_⟩
    · exact fetchAllGo_empty_fetch maxPer maxTotal industries 0
    · show fetchAll (fun _ _ => []) industries maxPer maxTotal = []
      exact fetchAllGo_empty_fetch maxPer maxTotal industries 0
    · show ([] : List NewsItem).foldl (mergeRssItem maxPer)
        (fetchAll (fun _ _ => []) industries maxPer maxTotal) = []
      rw [List.foldl_nil]
      exact fetchAllGo_empty_fetch maxPer maxTotal industries 0

/-- Witness for `nonempty_industry_values`: a run that accepts one item
for one industry produces a binding whose list is non-empty. -/
theorem nonempty_industry_values_witness :
    ([{ title := "人工智能新闻一则", url := "u", source := "s",
        industry := "人工智能" }] : List NewsItem) ≠ [] :=
  nonempty_industry_values.2.1 singleItemFetch (Except.ok []) INDUSTRIES 5 50
    "人工智能" _ (by decide) (by decide)

end NewsCatcher
